import Mathlib

/-!
Shallow embedding of the `trustwise_guardrails` core in Lean 4, together with
proofs about the embedded definitions.

Source files embedded:
- `src/guardrails/utils/result.py` (status and result types)
- `src/guardrails/core/engine.py` (pipeline execution)
- `src/guardrails/core/wrapper.py` (`GuardedAgent.chat`)
- `src/guardrails/core/adapters.py` (`detect_agent_interface`, `CustomMethodAdapter`)
- `src/guardrails/input_guardrails/length_validator.py`
- `src/guardrails/output_guardrails/pii_filter.py`

Python strings are modelled as Lean `String` (whose `data` field is the list of
characters, matching Python's code-point view of `str`) or, in the PII section,
directly as `List Char`.  Python exceptions are modelled by the inductive
`PyExc`; fallible Python code returns `Except PyExc _`.  Character classes of
the regular expressions are modelled on their ASCII fragment (all guardrail
patterns and all inputs considered in the theorems are ASCII).
-/

/-- Model of the Python exceptions that appear in the sources: `ValueError`,
`RuntimeError`, `TypeError`, and a catch-all for any other exception class
(carrying the class name and the message). -/
inductive PyExc where
  | valueError (msg : String)
  | runtimeError (msg : String)
  | typeError (msg : String)
  | other (className : String) (msg : String)
deriving DecidableEq

/-- Python `str(e)`: the message of the exception. -/
def PyExc.str : PyExc → String
  | .valueError m => m
  | .runtimeError m => m
  | .typeError m => m
  | .other _ m => m

/-- Python `isinstance(e, (ValueError, RuntimeError))`, the test used by
`GuardedAgent.chat` to recognise what it re-raises unchanged. -/
def PyExc.isValueOrRuntimeError : PyExc → Bool
  | .valueError _ => true
  | .runtimeError _ => true
  | _ => false

instance {ε α : Type} [DecidableEq ε] [DecidableEq α] : DecidableEq (Except ε α) := by
  intro x y
  cases x <;> cases y
  case error.error a b =>
    exact if h : a = b then .isTrue (by rw [h]) else .isFalse (by intro hc; cases hc; exact h rfl)
  case ok.ok a b =>
    exact if h : a = b then .isTrue (by rw [h]) else .isFalse (by intro hc; cases hc; exact h rfl)
  case error.ok a b => exact .isFalse (fun hc => Except.noConfusion hc)
  case ok.error a b => exact .isFalse (fun hc => Except.noConfusion hc)

/-- `GuardrailStatus` from `src/guardrails/utils/result.py`: closed enumeration
`PASSED | FAILED | WARNING | BLOCKED`. -/
inductive GuardrailStatus where
  | passed
  | failed
  | warning
  | blocked
deriving DecidableEq

/-- Values stored in a result's metadata dictionary.  The sources only ever
store numbers, strings and booleans in the metadata entries that the embedded
claims touch. -/
inductive MetaVal where
  | intV (i : Int)
  | strV (s : String)
  | boolV (b : Bool)
deriving DecidableEq

/-- `GuardrailResult` from `src/guardrails/utils/result.py`.  The metadata
dictionary is modelled as an association list. -/
structure GuardrailResult where
  status : GuardrailStatus
  message : String
  modifiedContent : Option String := none
  metadata : Option (List (String × MetaVal)) := none
deriving DecidableEq

/-- `GuardrailResult.is_failure`: true for `FAILED` and `BLOCKED`. -/
def GuardrailResult.isFailure (r : GuardrailResult) : Bool :=
  match r.status with
  | .failed => true
  | .blocked => true
  | _ => false

/-- `GuardrailResult.is_success`: true exactly for `PASSED`. -/
def GuardrailResult.isSuccess (r : GuardrailResult) : Bool :=
  match r.status with
  | .passed => true
  | _ => false

/-- `GuardrailResult.content` property: the modified content if it is not
`None`, the empty string otherwise (`result.py`, lines 37-40). -/
def GuardrailResult.content (r : GuardrailResult) : String :=
  r.modifiedContent.getD ""

/-- Python `a or b` specialised to strings: the empty string is falsy, every
other string is truthy. -/
def pyStrOr (a b : String) : String :=
  if a = "" then b else a

/-- Python `dict.update` on association lists: keys of `new` overwrite keys of
`old`, new keys are added.  (The iteration order of the Python dict is not
modelled; no embedded claim observes it.) -/
def pyDictUpdate (old new : List (String × MetaVal)) : List (String × MetaVal) :=
  old.filter (fun kv => !(new.any (fun kv2 => kv2.1 == kv.1))) ++ new

/-- An input guardrail as the engine sees it: a name, an enabled flag and the
`validate` method.  `validate` may raise, hence the `Except`.  (The `metadata`
argument that the engine forwards to `validate` is constant during one
pipeline run and is ignored by both reference guardrails, so it is elided from
the function type.) -/
structure InputGuardrail where
  name : String
  enabled : Bool
  validate : String → Except PyExc GuardrailResult

/-- An output guardrail: `filter` receives the current output text and the
original input text. -/
structure OutputGuardrail where
  name : String
  enabled : Bool
  filter : String → String → Except PyExc GuardrailResult

/-- `GuardrailsEngine` state after construction (`engine.py`): the enabled and
fail-fast flags (defaults `True`) and the two ordered guardrail lists. -/
structure GuardrailsEngine where
  enabled : Bool := true
  failFast : Bool := true
  inputGuardrails : List InputGuardrail := []
  outputGuardrails : List OutputGuardrail := []

/-- Result of one pipeline run: the `GuardrailResult` the Python function
returns, plus two ghost observations used only in theorem statements — the
names of the guardrails whose check function was actually invoked, in order,
and the `messages` accumulator at the moment of return. -/
structure PipelineRun where
  result : GuardrailResult
  invoked : List String
  msgs : List String


/-- The "use modified content if available" step of the engine loop
(`engine.py`, lines 107-109). -/
def nextText (r : GuardrailResult) (currentText : String) : String :=
  match r.modifiedContent with
  | some s => s
  | none => currentText

/-- The "collect metadata" step of the engine loop (`engine.py`, lines
111-113): `if result.metadata: combined_metadata.update(result.metadata)`
(`None` and the empty dict are falsy). -/
def nextMetadata (r : GuardrailResult) (md : List (String × MetaVal)) :
    List (String × MetaVal) :=
  match r.metadata with
  | some rm => if rm.isEmpty then md else pyDictUpdate md rm
  | none => md

/-- The guardrail loop of `GuardrailsEngine.apply_input_guardrails`
(`engine.py`, lines 90-135), with the loop state (`current_text`,
`combined_metadata`, `messages`, `has_failures`) passed explicitly.  The
`invoked` component records each guardrail whose `validate` was called. -/
def inputPipelineLoop (failFast : Bool) :
    List InputGuardrail → String → List (String × MetaVal) → List String → Bool → PipelineRun
  | [], currentText, md, msgs, hasFailures =>
      { result :=
          { status := if hasFailures then .failed else .passed,
            message := if msgs.isEmpty then "All input guardrails passed"
                       else String.intercalate "; " msgs,
            modifiedContent := some currentText,
            metadata := some md },
        invoked := [],
        msgs := msgs }
  | g :: rest, currentText, md, msgs, hasFailures =>
      if g.enabled then
        match g.validate currentText with
        | .ok r =>
            if r.isFailure then
              if failFast then
                { result := r, invoked := [g.name], msgs := msgs }
              else
                let res := inputPipelineLoop failFast rest currentText md
                  (msgs ++ [g.name ++ ": " ++ r.message]) true
                { res with invoked := g.name :: res.invoked }
            else
              let res := inputPipelineLoop failFast rest (nextText r currentText)
                (nextMetadata r md) (msgs ++ [g.name ++ ": " ++ r.message]) hasFailures
              { res with invoked := g.name :: res.invoked }
        | .error exc =>
            let errMsg := "Error in input guardrail " ++ g.name ++ ": " ++ exc.str
            if failFast then
              { result := { status := .failed, message := errMsg },
                invoked := [g.name],
                msgs := msgs }
            else
              let res := inputPipelineLoop failFast rest currentText md
                (msgs ++ [errMsg]) true
              { res with invoked := g.name :: res.invoked }
      else
        inputPipelineLoop failFast rest currentText md msgs hasFailures

/-- `GuardrailsEngine.apply_input_guardrails`, with the ghost observations. -/
def applyInputGuardrailsRun (e : GuardrailsEngine) (inputText : String) : PipelineRun :=
  if e.enabled then
    inputPipelineLoop e.failFast e.inputGuardrails inputText [] [] false
  else
    { result :=
        { status := .passed,
          message := "Guardrails engine disabled",
          modifiedContent := some inputText },
      invoked := [],
      msgs := [] }

/-- `GuardrailsEngine.apply_input_guardrails`: just the returned result. -/
def applyInputGuardrails (e : GuardrailsEngine) (inputText : String) : GuardrailResult :=
  (applyInputGuardrailsRun e inputText).result

/-- The guardrail loop of `GuardrailsEngine.apply_output_guardrails`
(`engine.py`, lines 160-205), structurally identical to the input loop except
that `filter` also receives the original input text and the messages say
"output". -/
def outputPipelineLoop (failFast : Bool) (inputText : String) :
    List OutputGuardrail → String → List (String × MetaVal) → List String → Bool → PipelineRun
  | [], currentText, md, msgs, hasFailures =>
      { result :=
          { status := if hasFailures then .failed else .passed,
            message := if msgs.isEmpty then "All output guardrails passed"
                       else String.intercalate "; " msgs,
            modifiedContent := some currentText,
            metadata := some md },
        invoked := [],
        msgs := msgs }
  | g :: rest, currentText, md, msgs, hasFailures =>
      if g.enabled then
        match g.filter currentText inputText with
        | .ok r =>
            if r.isFailure then
              if failFast then
                { result := r, invoked := [g.name], msgs := msgs }
              else
                let res := outputPipelineLoop failFast inputText rest currentText md
                  (msgs ++ [g.name ++ ": " ++ r.message]) true
                { res with invoked := g.name :: res.invoked }
            else
              let res := outputPipelineLoop failFast inputText rest (nextText r currentText)
                (nextMetadata r md) (msgs ++ [g.name ++ ": " ++ r.message]) hasFailures
              { res with invoked := g.name :: res.invoked }
        | .error exc =>
            let errMsg := "Error in output guardrail " ++ g.name ++ ": " ++ exc.str
            if failFast then
              { result := { status := .failed, message := errMsg },
                invoked := [g.name],
                msgs := msgs }
            else
              let res := outputPipelineLoop failFast inputText rest currentText md
                (msgs ++ [errMsg]) true
              { res with invoked := g.name :: res.invoked }
      else
        outputPipelineLoop failFast inputText rest currentText md msgs hasFailures

/-- `GuardrailsEngine.apply_output_guardrails`, with the ghost observations. -/
def applyOutputGuardrailsRun (e : GuardrailsEngine) (outputText inputText : String) :
    PipelineRun :=
  if e.enabled then
    outputPipelineLoop e.failFast inputText e.outputGuardrails outputText [] [] false
  else
    { result :=
        { status := .passed,
          message := "Guardrails engine disabled",
          modifiedContent := some outputText },
      invoked := [],
      msgs := [] }

/-- `GuardrailsEngine.apply_output_guardrails`: just the returned result. -/
def applyOutputGuardrails (e : GuardrailsEngine) (outputText inputText : String) :
    GuardrailResult :=
  (applyOutputGuardrailsRun e outputText inputText).result

/-- Names of the active (enabled) guardrails of a list, in order. -/
def activeInputNames (gs : List InputGuardrail) : List String :=
  (gs.filter (fun g => g.enabled)).map (fun g => g.name)

/-- Names of the active (enabled) output guardrails of a list, in order. -/
def activeOutputNames (gs : List OutputGuardrail) : List String :=
  (gs.filter (fun g => g.enabled)).map (fun g => g.name)

/-- Result of one `GuardedAgent.chat` call: the value returned or the exception
raised, plus a ghost observation of the text the adapter's `chat` was invoked
with (`none` when the adapter and agent were never invoked). -/
structure ChatCall where
  result : Except PyExc String
  agentCalledWith : Option String


/-- `GuardedAgent.chat` (`wrapper.py`, lines 35-105).  The wrapped adapter is
modelled as a function from the processed input to the agent's response or the
exception the adapter/agent raises.  The body of the Python `try` block is
`chatTryBody`; the `except` clause re-raises `ValueError`/`RuntimeError`
unchanged and wraps every other exception into
`RuntimeError("Agent execution failed: ...")`. -/
def chatTryBody (e : GuardrailsEngine) (agentChat : String → Except PyExc String)
    (processedInput userInput : String) : Except PyExc String :=
  match agentChat processedInput with
  | .error exc => .error exc
  | .ok agentResponse =>
      let outputResult := applyOutputGuardrails e agentResponse userInput
      if outputResult.isFailure then
        .error (.runtimeError ("Output blocked by guardrails: " ++ outputResult.message))
      else
        .ok (pyStrOr outputResult.content agentResponse)

/-- `GuardedAgent.chat`, with the ghost observation of the adapter call. -/
def guardedChat (e : GuardrailsEngine) (agentChat : String → Except PyExc String)
    (userInput : String) : ChatCall :=
  let inputResult := applyInputGuardrails e userInput
  if inputResult.isFailure then
    { result := .error (.valueError ("Input blocked by guardrails: " ++ inputResult.message)),
      agentCalledWith := none }
  else
    let processedInput := pyStrOr inputResult.content userInput
    match chatTryBody e agentChat processedInput userInput with
    | .ok finalResponse =>
        { result := .ok finalResponse, agentCalledWith := some processedInput }
    | .error exc =>
        { result :=
            if exc.isValueOrRuntimeError then .error exc
            else .error (.runtimeError ("Agent execution failed: " ++ exc.str)),
          agentCalledWith := some processedInput }

/-- The observable shape of a Python agent object, as `detect_agent_interface`
(`adapters.py`, lines 161-191) inspects it: presence of the `chat` / `invoke` /
`run` members, whether the object is callable, whether its `chat` member has a
`completions` member, the name of its type, and the list of its public callable
members (the result of the `dir`-comprehension used in the diagnostic). -/
structure AgentShape where
  hasChat : Bool
  hasInvoke : Bool
  hasRun : Bool
  isCallable : Bool
  hasChatCompletions : Bool := false
  typeName : String
  publicCallableMethods : List String

/-- Python `str.lower` on the ASCII letters. -/
def pyLower (s : String) : String :=
  String.mk (s.data.map Char.toLower)

/-- Whether `needle` occurs at the head of `hay`. -/
def listStartsWith : List Char → List Char → Bool
  | [], _ => true
  | _ :: _, [] => false
  | a :: as, b :: bs => a == b && listStartsWith as bs

/-- Whether `needle` occurs contiguously anywhere in `hay`. -/
def listContainsSub (needle : List Char) : List Char → Bool
  | [] => needle.isEmpty
  | c :: rest => listStartsWith needle (c :: rest) || listContainsSub needle rest

/-- Python `needle in hay` on strings: substring containment. -/
def pyStrContains (hay needle : String) : Bool :=
  listContainsSub needle.data hay.data

/-- A single-quote character, used to render Python `repr` of strings. -/
def pySingleQuote : String :=
  String.mk [Char.ofNat 39]

/-- Python `str(list_of_strings)`: the `repr`-style rendering used when a list
is interpolated into an f-string, e.g. a two-element list renders as a
bracketed, comma-separated sequence of single-quoted names. -/
def pyStrListRepr (xs : List String) : String :=
  "[" ++ String.intercalate ", " (xs.map (fun m => pySingleQuote ++ m ++ pySingleQuote)) ++ "]"

/-- `detect_agent_interface` (`adapters.py`, lines 161-191): the ordered
predicate chain over the agent's shape.  Note that the `openai_client` branch
is unreachable (its condition starts with the same `hasattr(agent, 'chat')`
test as the first branch) and that before failing, the function returns
`'langchain'` whenever the lower-cased type name contains `"langchain"` or
`"chain"`. -/
def detectAgentInterface (agent : AgentShape) : Except PyExc String :=
  if agent.hasChat then .ok "chat"
  else if agent.hasInvoke then .ok "invoke"
  else if agent.hasRun then .ok "run"
  else if agent.isCallable then .ok "callable"
  else if agent.hasChat && agent.hasChatCompletions then .ok "openai_client"
  else if pyStrContains (pyLower agent.typeName) "langchain"
       || pyStrContains (pyLower agent.typeName) "chain" then .ok "langchain"
  else
    .error (.valueError ("Unable to detect agent interface. Agent type: " ++ agent.typeName
      ++ ", Available methods: " ++ pyStrListRepr agent.publicCallableMethods))

/-- Helper used in refutations: whether an `Except` value is an `ok`. -/
def exceptIsOk {ε α : Type} : Except ε α → Bool
  | .ok _ => true
  | .error _ => false

/-- The configuration of `CustomMethodAdapter`: the `method_name` entry of the
config dict (`none` models an absent key, mirroring `config.get`). -/
structure CustomAdapterConfig where
  methodName : Option String := none

/-- The constructed adapter (never actually reachable, see
`customMethodAdapterInit`). -/
structure CustomMethodAdapter where
  methodName : String

/-- In CPython, `dict.get` accepts at most two arguments (the key and a
default); a call with a third argument raises
`TypeError("get expected at most 2 arguments, got 3")`.  The source line
`self.config.get("input_transform", lambda x, **kwargs: (x,), {})`
(`adapters.py`, line 94) parses as exactly such a three-argument call, because
the lambda body is the single expression `(x,)` and the trailing `, {}` is a
further argument to `get`. -/
def pyDictGetWithThreeArguments : Except PyExc Unit :=
  .error (.typeError "get expected at most 2 arguments, got 3")

/-- `CustomMethodAdapter.__init__` (`adapters.py`, lines 88-96): first
`self.method_name = self.config.get("method_name")` followed by the
`if not self.method_name` truthiness check (raising `ValueError` when the key
is absent or empty), then the `self.input_transform = ...` line, which always
raises `TypeError` (see `pyDictGetWithThreeArguments`). -/
def customMethodAdapterInit (config : CustomAdapterConfig) : Except PyExc CustomMethodAdapter :=
  match config.methodName with
  | none => .error (.valueError "method_name must be specified in config for CustomMethodAdapter")
  | some mn =>
      if mn = "" then
        .error (.valueError "method_name must be specified in config for CustomMethodAdapter")
      else
        match pyDictGetWithThreeArguments with
        | .error exc => .error exc
        | .ok _ => .ok { methodName := mn }

/-- The whitespace characters stripped by Python `str.strip()` and matched by
the regex class `\s` (ASCII fragment). -/
def pyIsSpace (c : Char) : Bool :=
  c == ' ' || c == '\t' || c == '\n' || c == '\x0d' || c == '\x0b' || c == '\x0c'

/-- Python `str.strip()` on the character list: drop whitespace from both
ends. -/
def pyStripList (l : List Char) : List Char :=
  ((l.dropWhile pyIsSpace).reverse.dropWhile pyIsSpace).reverse

/-- Python `str.strip()`. -/
def pyStrip (s : String) : String :=
  String.mk (pyStripList s.data)

/-- Python `s[:k]` for a nonnegative index: the first `k` characters (clamping
at the length, as Python slices do). -/
def pySliceTo (s : String) (k : Nat) : String :=
  String.mk (s.data.take k)

/-- The constructor configuration of `LengthValidatorGuardrail`
(`length_validator.py`): the four recognised options, `none` modelling an
absent key. -/
structure LengthValidatorConfig where
  minLength : Option Int := none
  maxLength : Option Int := none
  truncate : Option Bool := none
  truncateSuffix : Option String := none

/-- The state of a constructed `LengthValidatorGuardrail`. -/
structure LengthValidatorGuardrail where
  minLength : Int
  maxLength : Int
  truncate : Bool
  truncateSuffix : String
deriving DecidableEq

/-- `LengthValidatorGuardrail.__init__` (`length_validator.py`, lines 18-44):
apply the defaults (`min_length=1`, `max_length=10000`, `truncate=False`,
`truncate_suffix="..."`) and validate the configuration eagerly. -/
def lengthValidatorInit (config : LengthValidatorConfig) :
    Except PyExc LengthValidatorGuardrail :=
  let minLength := config.minLength.getD 1
  let maxLength := config.maxLength.getD 10000
  let truncate := config.truncate.getD false
  let truncateSuffix := config.truncateSuffix.getD "..."
  if minLength < 0 then .error (.valueError "min_length must be >= 0")
  else if maxLength ≤ 0 then .error (.valueError "max_length must be > 0")
  else if minLength > maxLength then .error (.valueError "min_length must be <= max_length")
  else .ok { minLength, maxLength, truncate, truncateSuffix }

/-- `LengthValidatorGuardrail.validate` (`length_validator.py`, lines 46-108).
The argument is an `Option String` so that the `input_text is None` branch is
representable. -/
def lengthValidatorValidate (v : LengthValidatorGuardrail) (inputText : Option String) :
    GuardrailResult :=
  match inputText with
  | none => { status := .failed, message := "Input text is None" }
  | some t =>
      let textLength : Int := (pyStrip t).length
      if textLength < v.minLength then
        { status := .failed,
          message := "Input too short: " ++ toString textLength
            ++ " chars (minimum: " ++ toString v.minLength ++ ")",
          metadata := some [("original_length", .intV textLength),
                            ("min_length", .intV v.minLength)] }
      else if textLength > v.maxLength then
        if v.truncate then
          let maxContentLength : Int := v.maxLength - (v.truncateSuffix.length : Int)
          if maxContentLength > 0 then
            let truncatedText := pySliceTo t maxContentLength.toNat ++ v.truncateSuffix
            { status := .warning,
              message := "Input truncated: " ++ toString textLength
                ++ " -> " ++ toString (truncatedText.length : Int) ++ " chars",
              modifiedContent := some truncatedText,
              metadata := some [("original_length", .intV textLength),
                                ("truncated_length", .intV (truncatedText.length : Int)),
                                ("max_length", .intV v.maxLength),
                                ("truncated", .boolV true)] }
          else
            { status := .failed,
              message := "Input too long and cannot be truncated safely: "
                ++ toString textLength ++ " chars" }
        else
          { status := .failed,
            message := "Input too long: " ++ toString textLength
              ++ " chars (maximum: " ++ toString v.maxLength ++ ")",
            metadata := some [("original_length", .intV textLength),
                              ("max_length", .intV v.maxLength)] }
      else
        { status := .passed,
          message := "Length validation passed: " ++ toString textLength ++ " chars",
          modifiedContent := some t,
          metadata := some [("length", .intV textLength)] }

/-- The regex word-character class `\w` (ASCII fragment): letters, digits and
the underscore. -/
def isWordChar (c : Char) : Bool :=
  c.isAlphanum || c == '_'

/-- Whether the character at index `i` exists and is a word character. -/
def wordAt (t : List Char) (i : Nat) : Bool :=
  match t.get? i with
  | some c => isWordChar c
  | none => false

/-- The regex word boundary `\b` at position `i` of `t`: exactly one of the
character before and the character after the position is a word character. -/
def atBoundary (t : List Char) (i : Nat) : Bool :=
  (if i = 0 then false else wordAt t (i - 1)) != wordAt t i

/-- Match exactly `n` consecutive characters of class `cls` starting at `i`;
return the position after the run. -/
def chkClassRun (cls : Char → Bool) : Nat → List Char → Nat → Option Nat
  | 0, _, i => some i
  | n + 1, t, i =>
      match t.get? i with
      | some c => if cls c then chkClassRun cls n t (i + 1) else none
      | none => none

/-- Match the literal character `c` at position `i`. -/
def chkChar (c : Char) (t : List Char) (i : Nat) : Option Nat :=
  match t.get? i with
  | some d => if d == c then some (i + 1) else none
  | none => none

/-- Length of the maximal run of characters of class `cls` starting at `i`. -/
def maxRun (cls : Char → Bool) (t : List Char) (i : Nat) : Nat :=
  ((t.drop i).takeWhile cls).length

/-- Greedily consume `cls*` starting at `i` (deterministic whenever the class
is disjoint from whatever must follow). -/
def skipRun (cls : Char → Bool) (t : List Char) (i : Nat) : Nat :=
  i + maxRun cls t i

/-- The optional separator `[-\s]?` of the credit-card pattern.  Because the
separator class is disjoint from `\d`, which always follows it, the greedy
optional is deterministic: consume the separator exactly when it is there. -/
def optCcSep (t : List Char) (i : Nat) : Nat :=
  match t.get? i with
  | some c => if c == '-' || pyIsSpace c then i + 1 else i
  | none => i

/-- Matcher for `\b\d{3}-\d{3}-\d{4}\b` (phone format 1) at position `i`:
returns the end position of the match, if any. -/
def matchPhone1At (t : List Char) (i : Nat) : Option Nat :=
  if atBoundary t i then
    (chkClassRun Char.isDigit 3 t i).bind fun j =>
    (chkChar '-' t j).bind fun j =>
    (chkClassRun Char.isDigit 3 t j).bind fun j =>
    (chkChar '-' t j).bind fun j =>
    (chkClassRun Char.isDigit 4 t j).bind fun j =>
    if atBoundary t j then some j else none
  else none

/-- Matcher for `\b\(\d{3}\)\s*\d{3}-\d{4}\b` (phone format 2).  `\s*` is
deterministic because `\s` is disjoint from the `\d` that follows. -/
def matchPhone2At (t : List Char) (i : Nat) : Option Nat :=
  if atBoundary t i then
    (chkChar '(' t i).bind fun j =>
    (chkClassRun Char.isDigit 3 t j).bind fun j =>
    (chkChar ')' t j).bind fun j =>
    (chkClassRun Char.isDigit 3 t (skipRun pyIsSpace t j)).bind fun j =>
    (chkChar '-' t j).bind fun j =>
    (chkClassRun Char.isDigit 4 t j).bind fun j =>
    if atBoundary t j then some j else none
  else none

/-- Matcher for `\b\d{3}\.\d{3}\.\d{4}\b` (phone format 3). -/
def matchPhone3At (t : List Char) (i : Nat) : Option Nat :=
  if atBoundary t i then
    (chkClassRun Char.isDigit 3 t i).bind fun j =>
    (chkChar '.' t j).bind fun j =>
    (chkClassRun Char.isDigit 3 t j).bind fun j =>
    (chkChar '.' t j).bind fun j =>
    (chkClassRun Char.isDigit 4 t j).bind fun j =>
    if atBoundary t j then some j else none
  else none

/-- Matcher for `\b\d{10}\b` (phone format 4). -/
def matchPhone4At (t : List Char) (i : Nat) : Option Nat :=
  if atBoundary t i then
    (chkClassRun Char.isDigit 10 t i).bind fun j =>
    if atBoundary t j then some j else none
  else none

/-- Matcher for `\b\d{4}[-\s]?\d{4}[-\s]?\d{4}[-\s]?\d{4}\b` (credit card). -/
def matchCreditCardAt (t : List Char) (i : Nat) : Option Nat :=
  if atBoundary t i then
    (chkClassRun Char.isDigit 4 t i).bind fun j =>
    (chkClassRun Char.isDigit 4 t (optCcSep t j)).bind fun j =>
    (chkClassRun Char.isDigit 4 t (optCcSep t j)).bind fun j =>
    (chkClassRun Char.isDigit 4 t (optCcSep t j)).bind fun j =>
    if atBoundary t j then some j else none
  else none

/-- Matcher for `\b\d{3}-\d{2}-\d{4}\b` (SSN format 1). -/
def matchSsn1At (t : List Char) (i : Nat) : Option Nat :=
  if atBoundary t i then
    (chkClassRun Char.isDigit 3 t i).bind fun j =>
    (chkChar '-' t j).bind fun j =>
    (chkClassRun Char.isDigit 2 t j).bind fun j =>
    (chkChar '-' t j).bind fun j =>
    (chkClassRun Char.isDigit 4 t j).bind fun j =>
    if atBoundary t j then some j else none
  else none

/-- Matcher for `\b\d{9}\b` (SSN format 2). -/
def matchSsn2At (t : List Char) (i : Nat) : Option Nat :=
  if atBoundary t i then
    (chkClassRun Char.isDigit 9 t i).bind fun j =>
    if atBoundary t j then some j else none
  else none

/-- The class `[A-Za-z0-9._%+-]` (local part of the email pattern). -/
def emailLocalClass (c : Char) : Bool :=
  c.isAlphanum || c == '.' || c == '_' || c == '%' || c == '+' || c == '-'

/-- The class `[A-Za-z0-9.-]` (domain part of the email pattern). -/
def emailDomainClass (c : Char) : Bool :=
  c.isAlphanum || c == '.' || c == '-'

/-- The class `[A-Z|a-z]` of the email pattern (note that the literal `|`
belongs to the class), closed under `re.IGNORECASE`. -/
def emailTldClass (c : Char) : Bool :=
  c.isAlpha || c == '|'

/-- Backtracking over the greedy `[A-Z|a-z]{2,}` of the email pattern: try the
run length `m`, then `m - 1`, ..., down to `2`, accepting the first length at
which the trailing `\b` holds.  `q` is the position right after the `\.`. -/
def emailTldBack (t : List Char) (q : Nat) : Nat → Option Nat
  | 0 => none
  | 1 => none
  | m + 2 =>
      if atBoundary t (q + m + 2) then some (q + m + 2)
      else emailTldBack t q (m + 1)

/-- Backtracking over the greedy `[A-Za-z0-9.-]+` of the email pattern: try
the run length `k`, then `k - 1`, ..., down to `1`.  For each length, the next
character must be the literal `.`, after which the topmost-level loop
`emailTldBack` runs on the maximal `[A-Z|a-z]` run.  `p` is the position right
after the `@`.  This is exactly the order in which the Python backtracking
engine explores the alternatives. -/
def emailDomainBack (t : List Char) (p : Nat) : Nat → Option Nat
  | 0 => none
  | k + 1 =>
      match chkChar '.' t (p + k + 1) with
      | some q =>
          match emailTldBack t q (maxRun emailTldClass t q) with
          | some e => some e
          | none => emailDomainBack t p k
      | none => emailDomainBack t p k

/-- Matcher for `\b[A-Za-z0-9._%+-]+@[A-Za-z0-9.-]+\.[A-Z|a-z]{2,}\b` with
`re.IGNORECASE` (the email pattern; the flag adds nothing because every class
is already closed under case).  The leading `[A-Za-z0-9._%+-]+` is
deterministic: a shorter-than-maximal run ends at a class character, which can
never equal the `@` that must follow, so only the maximal run can succeed. -/
def matchEmailAt (t : List Char) (i : Nat) : Option Nat :=
  if atBoundary t i then
    let l1 := maxRun emailLocalClass t i
    if l1 = 0 then none
    else
      match chkChar '@' t (i + l1) with
      | some p => emailDomainBack t p (maxRun emailDomainClass t p)
      | none => none
  else none

/-- `PIIFilterGuardrail` configuration (`pii_filter.py`, lines 19-44) with its
defaults. -/
structure PIIFilterConfig where
  maskEmails : Bool := true
  maskPhones : Bool := true
  maskCreditCards : Bool := true
  maskSsn : Bool := true
  replacement : List Char := "[REDACTED]".data
  strictMode : Bool := false

/-- `PIIFilterGuardrail._build_patterns` (`pii_filter.py`, lines 46-88): the
ordered list of (pii type, matcher, description) triples. -/
def buildPatterns (cfg : PIIFilterConfig) :
    List (String × (List Char → Nat → Option Nat) × String) :=
  (if cfg.maskEmails then [("email", matchEmailAt, "Email address")] else [])
  ++ (if cfg.maskPhones then
        [("phone", matchPhone1At, "Phone number (format 1)"),
         ("phone", matchPhone2At, "Phone number (format 2)"),
         ("phone", matchPhone3At, "Phone number (format 3)"),
         ("phone", matchPhone4At, "Phone number (format 4)")]
      else [])
  ++ (if cfg.maskCreditCards then [("credit_card", matchCreditCardAt, "Credit card number")]
      else [])
  ++ (if cfg.maskSsn then
        [("ssn", matchSsn1At, "Social Security Number (format 1)"),
         ("ssn", matchSsn2At, "Social Security Number (format 2)")]
      else [])

/-- The scanning loop of `re.finditer`: try a match at every position from
left to right; after a match, resume at its end (our patterns never match the
empty string, but the `i + 1` fallback mirrors the engine).  The `fuel`
argument only bounds the recursion: the position strictly increases at every
step and the scan stops once the position exceeds the length, so
`t.length + 2` units of fuel always suffice. -/
def finditerAux (m : List Char → Nat → Option Nat) (t : List Char) :
    Nat → Nat → List (Nat × Nat)
  | 0, _ => []
  | fuel + 1, i =>
      if i > t.length then []
      else
        match m t i with
        | some e => (i, e) :: finditerAux m t fuel (if e > i then e else i + 1)
        | none => finditerAux m t fuel (i + 1)

/-- `pattern.finditer(text)`: the list of (start, end) spans of the
non-overlapping matches, from left to right. -/
def finditer (m : List Char → Nat → Option Nat) (t : List Char) : List (Nat × Nat) :=
  finditerAux m t (t.length + 2) 0

/-- A PII detection record (`pii_filter.py`, lines 101-108): type tag,
description, matched text and the span offsets.  The Python key `end` is
rendered `stop` (`end` is a Lean keyword). -/
structure PIIDetection where
  ty : String
  description : String
  text : List Char
  start : Nat
  stop : Nat
deriving DecidableEq

/-- `PIIFilterGuardrail._detect_pii` (`pii_filter.py`, lines 90-113): run every
pattern's `finditer` over the text and record each match. -/
def detectPII (cfg : PIIFilterConfig) (t : List Char) : List PIIDetection :=
  (buildPatterns cfg).foldl
    (fun acc pat =>
      acc ++ (finditer pat.2.1 t).map (fun se =>
        { ty := pat.1,
          description := pat.2.2,
          text := (t.drop se.1).take (se.2 - se.1),
          start := se.1,
          stop := se.2 }))
    []

/-- Insert a detection into a list that is sorted by start offset descending,
after all entries with a greater-or-equal start (so that the overall sort is
stable, like Python's `sorted`). -/
def insertByStartDesc (d : PIIDetection) : List PIIDetection → List PIIDetection
  | [] => [d]
  | x :: xs => if x.start ≥ d.start then x :: insertByStartDesc d xs else d :: x :: xs

/-- `sorted(detections, key=lambda x: x["start"], reverse=True)`: stable sort
by start offset, descending. -/
def sortByStartDesc (ds : List PIIDetection) : List PIIDetection :=
  ds.foldl (fun acc d => insertByStartDesc d acc) []

/-- One replacement step of `_mask_pii`:
`masked_text[:start] + replacement + masked_text[end:]`. -/
def maskReplaceOne (replacement : List Char) (masked : List Char) (d : PIIDetection) :
    List Char :=
  masked.take d.start ++ replacement ++ masked.drop d.stop

/-- `PIIFilterGuardrail._mask_pii` (`pii_filter.py`, lines 115-134): sort the
detections by start offset descending and replace each span, working from the
end of the string toward the start. -/
def maskPII (cfg : PIIFilterConfig) (t : List Char) (ds : List PIIDetection) : List Char :=
  (sortByStartDesc ds).foldl (maskReplaceOne cfg.replacement) t

/-- The segments of `t` that lie outside the spans of an ascending,
non-overlapping detection list, starting from offset `lo`: there is one
segment before each span and one final segment after the last span. -/
def maskSegments (t : List Char) : Nat → List PIIDetection → List (List Char)
  | lo, [] => [t.drop lo]
  | lo, d :: rest => (t.drop lo).take (d.start - lo) :: maskSegments t d.stop rest

/-- The characters of `t` outside the spans of an ascending, non-overlapping
detection list, in their original order. -/
def unmatchedChars (t : List Char) : Nat → List PIIDetection → List Char
  | lo, [] => t.drop lo
  | lo, d :: rest => (t.drop lo).take (d.start - lo) ++ unmatchedChars t d.stop rest

/-- Join a list of segments, inserting `rep` between consecutive segments. -/
def joinWithRep (rep : List Char) : List (List Char) → List Char
  | [] => []
  | [s] => s
  | s :: s2 :: rest => s ++ rep ++ joinWithRep rep (s2 :: rest)

/-- The detections sorted by start offset ascending (the reverse of the
descending stable sort used by `_mask_pii`). -/
def sortByStartAsc (ds : List PIIDetection) : List PIIDetection :=
  (sortByStartDesc ds).reverse

/-- C2 — the source line that should install the default transforms always
raises: constructing a `CustomMethodAdapter` with only the method name in its
configuration fails with `TypeError("get expected at most 2 arguments, got
3")` instead of succeeding with the default input transform `(text,), {}` and
the default output transform `str`.  The claim (and the spec, and the repo's
own `test_custom_adapter`) describe the evident intent; the code's
mis-parenthesised default lambda is the slip. -/
theorem customMethodAdapterInit_always_raises :
    customMethodAdapterInit { methodName := some "process_text" } =
      .error (.typeError "get expected at most 2 arguments, got 3") := rfl

/-- An agent shape whose type name contains "chain" but which matches none of
the four detectable shapes. -/
def chainNamedAgent : AgentShape :=
  { hasChat := false, hasInvoke := false, hasRun := false, isCallable := false,
    typeName := "MyChain", publicCallableMethods := ["someOtherMethod"] }

/-- C3 counterexample — an agent with no `chat`/`invoke`/`run` member that is
not callable is nevertheless detected as `langchain` (because its type name
contains "chain") instead of failing with the diagnostic error the claim
requires for every agent matching none of the four shapes. -/
theorem detectAgentInterface_claim_counterexample :
    detectAgentInterface chainNamedAgent = .ok "langchain"
      ∧ exceptIsOk (detectAgentInterface chainNamedAgent) = true := by
  decide

/-- C3 (amended) — `detect_agent_interface` follows exactly the priority order
`chat` → `invoke` → `run` → directly invocable, and an object exposing both
`chat` and `invoke` is detected as `chat`; for an agent matching none of the
four shapes, if the lower-cased type name contains "langchain" or "chain" the
LangChain variant is returned, and otherwise detection fails with a diagnostic
error listing the agent's public callable members. -/
theorem detectAgentInterface_priority (a : AgentShape) :
    (a.hasChat = true → detectAgentInterface a = .ok "chat") ∧
    (a.hasChat = false → a.hasInvoke = true → detectAgentInterface a = .ok "invoke") ∧
    (a.hasChat = false → a.hasInvoke = false → a.hasRun = true →
      detectAgentInterface a = .ok "run") ∧
    (a.hasChat = false → a.hasInvoke = false → a.hasRun = false → a.isCallable = true →
      detectAgentInterface a = .ok "callable") ∧
    (a.hasChat = false → a.hasInvoke = false → a.hasRun = false → a.isCallable = false →
      (pyStrContains (pyLower a.typeName) "langchain"
        || pyStrContains (pyLower a.typeName) "chain") = true →
      detectAgentInterface a = .ok "langchain") ∧
    (a.hasChat = false → a.hasInvoke = false → a.hasRun = false → a.isCallable = false →
      (pyStrContains (pyLower a.typeName) "langchain"
        || pyStrContains (pyLower a.typeName) "chain") = false →
      detectAgentInterface a =
        .error (.valueError ("Unable to detect agent interface. Agent type: " ++ a.typeName
          ++ ", Available methods: " ++ pyStrListRepr a.publicCallableMethods))) := by
  refine ⟨?_, ?_, ?_, ?_, ?_, ?_⟩ <;>
    intros <;> simp [detectAgentInterface, *]

/-- An agent shape exposing both `chat` and `invoke`. -/
def dualChatInvokeAgent : AgentShape :=
  { hasChat := true, hasInvoke := true, hasRun := false, isCallable := false,
    typeName := "DualAgent", publicCallableMethods := ["chat", "invoke"] }

/-- An agent shape whose only public callable member is `someOtherMethod`. -/
def plainOtherMethodAgent : AgentShape :=
  { hasChat := false, hasInvoke := false, hasRun := false, isCallable := false,
    typeName := "PlainThing", publicCallableMethods := ["someOtherMethod"] }

/-- Witness for C3: an object exposing both `chat` and `invoke` is detected as
`chat`, and an object whose only public member is `someOtherMethod` produces
the diagnostic error naming that member. -/
theorem detectAgentInterface_priority_witness :
    detectAgentInterface dualChatInvokeAgent = .ok "chat"
      ∧ detectAgentInterface plainOtherMethodAgent =
          .error (.valueError ("Unable to detect agent interface. Agent type: PlainThing"
            ++ ", Available methods: " ++ pyStrListRepr ["someOtherMethod"])) :=
  ⟨(detectAgentInterface_priority dualChatInvokeAgent).1 rfl,
   (detectAgentInterface_priority plainOtherMethodAgent).2.2.2.2.2
     rfl rfl rfl rfl (by decide)⟩

/-- An adapter whose agent raises `ValueError("boom")`. -/
def valueErrorAgent : String → Except PyExc String :=
  fun _ => .error (.valueError "boom")

/-- C1 counterexample — with no guardrails registered, an agent that raises
`ValueError("boom")` (which is not a guardrail-blocked condition) has its
exception re-raised unchanged by `GuardedAgent.chat`, not wrapped into the
"agent execution failed" condition the claim requires for every non-guardrail
exception. -/
theorem guardedChat_claim_counterexample :
    (guardedChat {} valueErrorAgent "hi").result = .error (.valueError "boom")
      ∧ PyExc.valueError "boom" ≠ PyExc.runtimeError "Agent execution failed: boom" := by
  decide

/-- C1 (amended) — when the adapter or agent raises, `GuardedAgent.chat`
re-raises the exception unchanged if it is a `ValueError` or a `RuntimeError`
(the classes used for the input-blocked and output-blocked guardrail
conditions, so those always pass through un-wrapped), and wraps every other
exception into a `RuntimeError("Agent execution failed: ...")` carrying the
original exception's text. -/
theorem guardedChat_exception_wrapping (e : GuardrailsEngine)
    (agentChat : String → Except PyExc String) (u : String) (exc : PyExc)
    (hok : (applyInputGuardrails e u).isFailure = false)
    (hagent : agentChat (pyStrOr (applyInputGuardrails e u).content u) = .error exc) :
    (guardedChat e agentChat u).result =
      if exc.isValueOrRuntimeError then .error exc
      else .error (.runtimeError ("Agent execution failed: " ++ exc.str)) := by
  simp [guardedChat, chatTryBody, hok, hagent]

/-- An adapter whose agent raises a `TypeError("oops")`. -/
def typeErrorAgent : String → Except PyExc String :=
  fun _ => .error (.typeError "oops")

/-- Witness for the amended C1: a `TypeError` from the agent is wrapped into
the "agent execution failed" `RuntimeError`. -/
theorem guardedChat_exception_wrapping_witness :
    (applyInputGuardrails {} "hi").isFailure = false
      ∧ (guardedChat {} typeErrorAgent "hi").result =
          .error (.runtimeError "Agent execution failed: oops") :=
  ⟨by decide, by
    simpa using guardedChat_exception_wrapping {} typeErrorAgent "hi"
      (.typeError "oops") (by decide) rfl⟩

/-- C9 — when the input pipeline's result is a failure state,
`GuardedAgent.chat` raises the input-blocked `ValueError` carrying the
pipeline's message, and the adapter (hence the underlying agent) is never
invoked. -/
theorem guardedChat_input_blocked (e : GuardrailsEngine)
    (agentChat : String → Except PyExc String) (u : String)
    (hfail : (applyInputGuardrails e u).isFailure = true) :
    (guardedChat e agentChat u).result =
        .error (.valueError ("Input blocked by guardrails: "
          ++ (applyInputGuardrails e u).message))
      ∧ (guardedChat e agentChat u).agentCalledWith = none := by
  simp [guardedChat, hfail]

/-- A length validator with `min_length = 3` and the remaining defaults. -/
def lengthValidatorMin3 : LengthValidatorGuardrail :=
  { minLength := 3, maxLength := 10000, truncate := false, truncateSuffix := "..." }

/-- The `min_length = 3` length validator registered as an input guardrail. -/
def lengthMin3Guardrail : InputGuardrail :=
  { name := "length_validator", enabled := true,
    validate := fun s => .ok (lengthValidatorValidate lengthValidatorMin3 (some s)) }

/-- An engine whose only guardrail is the `min_length = 3` length validator. -/
def engineMin3 : GuardrailsEngine :=
  { inputGuardrails := [lengthMin3Guardrail] }

/-- An adapter that echoes its input. -/
def echoAgent : String → Except PyExc String :=
  fun s => .ok ("echo: " ++ s)

/-- Witness for C9 (the spec's end-to-end scenario 1): input `"Hi"` with
`min_length = 3` makes `chat` raise input-blocked and the agent is never
called.  The constructor really produces this validator. -/
theorem guardedChat_input_blocked_witness :
    lengthValidatorInit { minLength := some 3 } = .ok lengthValidatorMin3
      ∧ (applyInputGuardrails engineMin3 "Hi").isFailure = true
      ∧ (guardedChat engineMin3 echoAgent "Hi").result =
          .error (.valueError "Input blocked by guardrails: Input too short: 2 chars (minimum: 3)")
      ∧ (guardedChat engineMin3 echoAgent "Hi").agentCalledWith = none := by
  have h := guardedChat_input_blocked engineMin3 echoAgent "Hi" (by decide)
  exact ⟨by decide, by decide, by rw [h.1]; decide, h.2⟩

/-- C10 — `GuardedAgent.chat` tests the truthiness of a pipeline's surviving
content, not its presence: an input rewritten to the empty string is replaced
by the original user input before the agent is called, and an output rewritten
to the empty string is discarded in favour of the raw agent response. -/
theorem guardedChat_empty_content_fallback (e : GuardrailsEngine)
    (agentChat : String → Except PyExc String) (u : String) :
    ((applyInputGuardrails e u).isFailure = false →
      (applyInputGuardrails e u).modifiedContent = some "" →
      (guardedChat e agentChat u).agentCalledWith = some u) ∧
    (∀ resp : String,
      (applyInputGuardrails e u).isFailure = false →
      agentChat (pyStrOr (applyInputGuardrails e u).content u) = .ok resp →
      (applyOutputGuardrails e resp u).isFailure = false →
      (applyOutputGuardrails e resp u).modifiedContent = some "" →
      (guardedChat e agentChat u).result = .ok resp) := by
  constructor
  · intro h1 h2
    have hp : pyStrOr (applyInputGuardrails e u).content u = u := by
      simp [GuardrailResult.content, h2, pyStrOr]
    simp only [guardedChat, h1, Bool.false_eq_true, if_false, hp]
    cases hbody : chatTryBody e agentChat u u <;> simp [hbody]
  · intro resp h1 hag h3 h4
    simp only [guardedChat, h1, Bool.false_eq_true, if_false, chatTryBody, hag]
    simp [h3, GuardrailResult.content, h4, pyStrOr]

/-- An input guardrail that passes but rewrites every input to the empty
string. -/
def eraseInputGuardrail : InputGuardrail :=
  { name := "eraser", enabled := true,
    validate := fun _ => .ok { status := .passed, message := "erased",
                               modifiedContent := some "" } }

/-- An output guardrail that passes with a warning but rewrites every response
to the empty string (the behaviour of the PII filter when the replacement
token is configured as the empty string and the whole response is one detected
span). -/
def eraseOutputGuardrail : OutputGuardrail :=
  { name := "pii_filter", enabled := true,
    filter := fun _ _ => .ok { status := .warning, message := "PII masked in output",
                               modifiedContent := some "" } }

/-- An engine that rewrites both the input and the output to the empty
string. -/
def erasingEngine : GuardrailsEngine :=
  { inputGuardrails := [eraseInputGuardrail], outputGuardrails := [eraseOutputGuardrail] }

/-- Witness for C10: under the erasing engine, the agent still receives the
original input and the caller still receives the raw agent response. -/
theorem guardedChat_empty_content_fallback_witness :
    (applyInputGuardrails erasingEngine "hello").modifiedContent = some ""
      ∧ (applyOutputGuardrails erasingEngine "echo: hello" "hello").modifiedContent = some ""
      ∧ (guardedChat erasingEngine echoAgent "hello").agentCalledWith = some "hello"
      ∧ (guardedChat erasingEngine echoAgent "hello").result = .ok "echo: hello" := by
  have h := guardedChat_empty_content_fallback erasingEngine echoAgent "hello"
  exact ⟨by decide, by decide,
    h.1 (by decide) (by decide),
    h.2 "echo: hello" (by decide) (by decide) (by decide) (by decide)⟩

/-- String append acts as list append on the character data. -/
theorem stringDataAppend (a b : String) : (a ++ b).data = a.data ++ b.data := rfl

/-- The length of a Python slice `s[:k]`. -/
theorem pySliceTo_length (t : String) (k : Nat) :
    (pySliceTo t k).length = min k t.length := by
  show (t.data.take k).length = min k t.length
  rw [List.length_take]
  rfl

/-- Stripping never lengthens a character list. -/
theorem pyStripList_length_le (l : List Char) : (pyStripList l).length ≤ l.length := by
  unfold pyStripList
  calc ((l.dropWhile pyIsSpace).reverse.dropWhile pyIsSpace).reverse.length
      = ((l.dropWhile pyIsSpace).reverse.dropWhile pyIsSpace).length := by
        rw [List.length_reverse]
    _ ≤ (l.dropWhile pyIsSpace).reverse.length :=
        (List.dropWhile_sublist _).length_le
    _ = (l.dropWhile pyIsSpace).length := by rw [List.length_reverse]
    _ ≤ l.length := (List.dropWhile_sublist _).length_le

/-- A successfully constructed length validator satisfies the constructor's
eager validation: `0 ≤ min_length`, `0 < max_length`, `min_length ≤
max_length`. -/
theorem lengthValidatorInit_inequalities (cfg : LengthValidatorConfig)
    (v : LengthValidatorGuardrail) (h : lengthValidatorInit cfg = .ok v) :
    0 ≤ v.minLength ∧ 0 < v.maxLength ∧ v.minLength ≤ v.maxLength := by
  simp only [lengthValidatorInit] at h
  split_ifs at h with h1 h2 h3
  all_goals
    first
      | exact Except.noConfusion h
      | (injection h with h; subst h; refine ⟨?_, ?_, ?_⟩ <;> simp <;> omega)

set_option maxRecDepth 8000 in
/-- C5 — for an input whose trimmed length exceeds `max_length`, with
truncation enabled: when `max_length > len(truncate_suffix)` the validator
returns `Warning` whose modified content is the first
`max_length - len(suffix)` characters of the input followed by the suffix,
has length exactly `max_length` and ends with the suffix; when
`max_length ≤ len(truncate_suffix)` the validator returns `Failed`. -/
theorem lengthValidator_truncation (cfg : LengthValidatorConfig)
    (v : LengthValidatorGuardrail) (t : String)
    (hmk : lengthValidatorInit cfg = .ok v)
    (htr : v.truncate = true)
    (hlen : ((pyStrip t).length : Int) > v.maxLength) :
    (v.maxLength > (v.truncateSuffix.length : Int) →
      (lengthValidatorValidate v (some t)).status = .warning
      ∧ (lengthValidatorValidate v (some t)).modifiedContent =
          some (pySliceTo t (v.maxLength - (v.truncateSuffix.length : Int)).toNat
            ++ v.truncateSuffix)
      ∧ (((pySliceTo t (v.maxLength - (v.truncateSuffix.length : Int)).toNat
            ++ v.truncateSuffix).length : Int) = v.maxLength)
      ∧ v.truncateSuffix.data <:+ (pySliceTo t (v.maxLength - (v.truncateSuffix.length : Int)).toNat
            ++ v.truncateSuffix).data) ∧
    (v.maxLength ≤ (v.truncateSuffix.length : Int) →
      (lengthValidatorValidate v (some t)).status = .failed) := by
  have hineq := lengthValidatorInit_inequalities cfg v hmk
  have hnotshort : ¬(((pyStrip t).length : Int) < v.minLength) := by omega
  have hslen : (pyStrip t).length ≤ t.length := pyStripList_length_le t.data
  constructor
  · intro hgt
    have hpos : (0 : Int) < v.maxLength - (v.truncateSuffix.length : Int) := by omega
    have hval : (lengthValidatorValidate v (some t)).status = .warning
        ∧ (lengthValidatorValidate v (some t)).modifiedContent =
            some (pySliceTo t (v.maxLength - (v.truncateSuffix.length : Int)).toNat
              ++ v.truncateSuffix) := by
      simp only [lengthValidatorValidate]
      rw [if_neg hnotshort, if_pos hlen, if_pos htr, if_pos hpos]
      exact ⟨rfl, rfl⟩
    have hklen : (v.maxLength - (v.truncateSuffix.length : Int)).toNat ≤ t.length := by
      omega
    have hwlen : ((pySliceTo t (v.maxLength - (v.truncateSuffix.length : Int)).toNat
        ++ v.truncateSuffix).length : Int) = v.maxLength := by
      rw [String.length_append, pySliceTo_length,
        Nat.min_eq_left hklen]
      push_cast
      omega
    exact ⟨hval.1, hval.2, hwlen, by rw [stringDataAppend]; exact List.suffix_append _ _⟩
  · intro hle
    have hnpos : ¬((0 : Int) < v.maxLength - (v.truncateSuffix.length : Int)) := by omega
    simp only [lengthValidatorValidate]
    rw [if_neg hnotshort, if_pos hlen, if_pos htr, if_neg hnpos]

/-- The truncating validator used in the C5 witness: `max_length = 5`,
`truncate = true`. -/
def truncatingValidator5 : LengthValidatorGuardrail :=
  { minLength := 1, maxLength := 5, truncate := true, truncateSuffix := "..." }

/-- The truncating validator with `max_length = 2`, smaller than the suffix
length. -/
def truncatingValidator2 : LengthValidatorGuardrail :=
  { minLength := 1, maxLength := 2, truncate := true, truncateSuffix := "..." }

/-- Witness for C5: on `"abcdefgh"` the `max_length = 5` truncating validator
returns `Warning` with content `"ab..."` (length 5, ending in the suffix), and
the `max_length = 2` one returns `Failed`. -/
theorem lengthValidator_truncation_witness :
    lengthValidatorInit { maxLength := some 5, truncate := some true } = .ok truncatingValidator5
      ∧ (lengthValidatorValidate truncatingValidator5 (some "abcdefgh")).status = .warning
      ∧ (lengthValidatorValidate truncatingValidator5 (some "abcdefgh")).modifiedContent =
          some "ab..."
      ∧ (lengthValidatorValidate truncatingValidator2 (some "abcdefgh")).status = .failed := by
  have hA := (lengthValidator_truncation { maxLength := some 5, truncate := some true }
    truncatingValidator5 "abcdefgh" rfl rfl (by decide)).1 (by decide)
  have hB := (lengthValidator_truncation { maxLength := some 2, truncate := some true }
    truncatingValidator2 "abcdefgh" rfl rfl (by decide)).2 (by decide)
  exact ⟨rfl, hA.1, by rw [hA.2.1]; decide, hB⟩


/-- In fail-fast mode, once the loop reaches an active guardrail that returns
the failing result `r` (after a prefix of active guardrails that all succeed),
it returns `r` verbatim and invokes nothing beyond that guardrail, whatever
the loop state. -/
theorem inputLoop_failfast_stops (pre : List InputGuardrail) (g : InputGuardrail)
    (post : List InputGuardrail) (r : GuardrailResult)
    (hpre : ∀ p ∈ pre, p.enabled = true →
      ∀ s, ∃ rp, p.validate s = .ok rp ∧ rp.isFailure = false)
    (hg : g.enabled = true) (hr : ∀ s, g.validate s = .ok r) (hrf : r.isFailure = true) :
    ∀ c md m h, (inputPipelineLoop true (pre ++ g :: post) c md m h).result = r ∧
      (inputPipelineLoop true (pre ++ g :: post) c md m h).invoked =
        activeInputNames pre ++ [g.name] := by
  induction pre with
  | nil =>
      intro c md m h
      simp [inputPipelineLoop, hg, hr c, hrf, activeInputNames]
  | cons p pre ih =>
      intro c md m h
      have ih2 := ih (fun q hq hqe s => hpre q (List.mem_cons_of_mem p hq) hqe s)
      cases hpe : p.enabled with
      | false =>
          have hout := ih2 c md m h
          simp only [List.cons_append, inputPipelineLoop, hpe, Bool.false_eq_true, if_false,
            List.append_eq]
          refine ⟨hout.1, ?_⟩
          rw [hout.2]
          simp [activeInputNames, hpe]
      | true =>
          obtain ⟨rp, hval, hfail⟩ := hpre p (List.mem_cons_self p pre) hpe c
          have hout := ih2 (nextText rp c) (nextMetadata rp md)
            (m ++ [p.name ++ ": " ++ rp.message]) h
          simp only [List.cons_append, inputPipelineLoop, hpe, if_true, hval, hfail,
            Bool.false_eq_true, if_false, List.append_eq]
          refine ⟨hout.1, ?_⟩
          rw [hout.2]
          simp [activeInputNames, hpe]

/-- In collect-all mode, when every active guardrail returns a result with
failure flag `fb` and message `mb` (on every input), the loop invokes exactly
the active guardrails, its final status is `Failed` exactly when the
`has_failures` flag was already set or some active guardrail failed, its
message list extends the accumulator with one `"name: message"` entry per
active guardrail, and its final message joins that list. -/
theorem inputLoop_collect (gs : List InputGuardrail) (fb : InputGuardrail → Bool)
    (mb : InputGuardrail → String)
    (hb : ∀ g ∈ gs, g.enabled = true →
      ∀ s, ∃ rg, g.validate s = .ok rg ∧ rg.isFailure = fb g ∧ rg.message = mb g) :
    ∀ c md m h,
      ((inputPipelineLoop false gs c md m h).result.status =
        if h || (gs.filter (fun g => g.enabled)).any fb then .failed else .passed) ∧
      (inputPipelineLoop false gs c md m h).invoked = activeInputNames gs ∧
      (inputPipelineLoop false gs c md m h).msgs =
        m ++ (gs.filter (fun g => g.enabled)).map (fun g => g.name ++ ": " ++ mb g) ∧
      (inputPipelineLoop false gs c md m h).result.message =
        (if (m ++ (gs.filter (fun g => g.enabled)).map
              (fun g => g.name ++ ": " ++ mb g)).isEmpty
         then "All input guardrails passed"
         else String.intercalate "; "
           (m ++ (gs.filter (fun g => g.enabled)).map (fun g => g.name ++ ": " ++ mb g))) := by
  induction gs with
  | nil =>
      intro c md m h
      simp [inputPipelineLoop, activeInputNames]
  | cons g gs ih =>
      intro c md m h
      have ih2 := ih (fun q hq hqe s => hb q (List.mem_cons_of_mem g hq) hqe s)
      cases hge : g.enabled with
      | false =>
          have hfc : (g :: gs).filter (fun x => x.enabled) = gs.filter (fun x => x.enabled) := by
            simp [List.filter_cons, hge]
          have han : activeInputNames (g :: gs) = activeInputNames gs := by
            simp [activeInputNames, List.filter_cons, hge]
          have hout := ih2 c md m h
          simp only [inputPipelineLoop, hge, Bool.false_eq_true, if_false, List.append_eq,
            hfc, han]
          exact hout
      | true =>
          obtain ⟨rg, hval, hfail, hmsg⟩ := hb g (List.mem_cons_self g gs) hge c
          have hfc : (g :: gs).filter (fun x => x.enabled)
              = g :: gs.filter (fun x => x.enabled) := by
            simp [List.filter_cons, hge]
          have han : activeInputNames (g :: gs) = g.name :: activeInputNames gs := by
            simp [activeInputNames, List.filter_cons, hge]
          cases hfb : fb g with
          | false =>
              rw [hfb] at hfail
              have hout := ih2 (nextText rg c) (nextMetadata rg md)
                (m ++ [g.name ++ ": " ++ mb g]) h
              simp only [inputPipelineLoop, hge, if_true, hval, hfail,
                Bool.false_eq_true, if_false, List.append_eq]
              rw [hmsg]
              simp only [hfc, han, List.map_cons]
              refine ⟨?_, ?_, ?_, ?_⟩
              · rw [hout.1]
                simp [List.any_cons, hfb]
              · rw [hout.2.1]
              · rw [hout.2.2.1]
                simp [List.append_assoc]
              · rw [hout.2.2.2]
                simp [List.append_assoc]
          | true =>
              rw [hfb] at hfail
              have hout := ih2 c md (m ++ [g.name ++ ": " ++ mb g]) true
              simp only [inputPipelineLoop, hge, if_true, hval, hfail,
                Bool.false_eq_true, if_false, List.append_eq]
              rw [hmsg]
              simp only [hfc, han, List.map_cons]
              refine ⟨?_, ?_, ?_, ?_⟩
              · rw [hout.1]
                simp [List.any_cons, hfb]
              · rw [hout.2.1]
              · rw [hout.2.2.1]
                simp [List.append_assoc]
              · rw [hout.2.2.2]
                simp [List.append_assoc]

/-- C4 — on an enabled engine: in fail-fast mode, the first active input
guardrail that returns a failing result ends the pipeline with that result
returned verbatim, and no later guardrail is ever invoked; in collect-all
mode, every active guardrail is invoked, the overall status is `Failed` if any
active guardrail failed and `Passed` otherwise, and the final message joins
each invoked guardrail's `"name: message"` entry. -/
theorem enginePipeline_failfast_vs_collect (e : GuardrailsEngine) (t : String)
    (he : e.enabled = true) :
    (∀ pre g post r,
      e.failFast = true →
      e.inputGuardrails = pre ++ g :: post →
      (∀ p ∈ pre, p.enabled = true →
        ∀ s, ∃ rp, p.validate s = .ok rp ∧ rp.isFailure = false) →
      g.enabled = true →
      (∀ s, g.validate s = .ok r) →
      r.isFailure = true →
      applyInputGuardrails e t = r ∧
        (applyInputGuardrailsRun e t).invoked = activeInputNames pre ++ [g.name]) ∧
    (∀ (fb : InputGuardrail → Bool) (mb : InputGuardrail → String),
      e.failFast = false →
      (∀ g ∈ e.inputGuardrails, g.enabled = true →
        ∀ s, ∃ rg, g.validate s = .ok rg ∧ rg.isFailure = fb g ∧ rg.message = mb g) →
      ((applyInputGuardrails e t).status =
        if (e.inputGuardrails.filter (fun g => g.enabled)).any fb then .failed else .passed) ∧
      (applyInputGuardrailsRun e t).invoked = activeInputNames e.inputGuardrails ∧
      (applyInputGuardrails e t).message =
        (if (e.inputGuardrails.filter (fun g => g.enabled)).isEmpty
         then "All input guardrails passed"
         else String.intercalate "; "
           ((e.inputGuardrails.filter (fun g => g.enabled)).map
             (fun g => g.name ++ ": " ++ mb g)))) := by
  have hrun : applyInputGuardrailsRun e t =
      inputPipelineLoop e.failFast e.inputGuardrails t [] [] false := by
    rw [applyInputGuardrailsRun, if_pos he]
  constructor
  · intro pre g post r hff hdec hpre hg hr hrf
    have h := inputLoop_failfast_stops pre g post r hpre hg hr hrf t [] [] false
    rw [← hdec] at h
    rw [applyInputGuardrails, hrun, hff]
    exact h
  · intro fb mb hff hb
    have h := inputLoop_collect e.inputGuardrails fb mb hb t [] [] false
    rw [applyInputGuardrails, hrun, hff]
    refine ⟨?_, h.2.1, ?_⟩
    · rw [h.1]
      simp
    · rw [h.2.2.2]
      rcases hfl : e.inputGuardrails.filter (fun g => g.enabled) with _ | ⟨a, l⟩ <;>
        simp [hfl]

/-- A guardrail named `A` that always fails. -/
def guardrailA : InputGuardrail :=
  { name := "A", enabled := true,
    validate := fun _ => .ok { status := .failed, message := "A failed" } }

/-- A guardrail named `B` that always passes. -/
def guardrailB : InputGuardrail :=
  { name := "B", enabled := true,
    validate := fun _ => .ok { status := .passed, message := "B ok" } }

/-- The fail-fast engine with guardrails `[A (fails), B (passes)]`. -/
def failFastEngineAB : GuardrailsEngine :=
  { inputGuardrails := [guardrailA, guardrailB] }

/-- The collect-all engine with guardrails `[A (fails), B (passes)]`. -/
def collectAllEngineAB : GuardrailsEngine :=
  { failFast := false, inputGuardrails := [guardrailA, guardrailB] }

/-- Witness for C4 (the spec's fail-fast vs. collect-all scenario): with
guardrails `[A (fails), B (passes)]`, fail-fast returns A's result verbatim
and never invokes B, while collect-all invokes both, is `Failed` overall, and
its combined message mentions both names. -/
theorem enginePipeline_failfast_vs_collect_witness :
    applyInputGuardrails failFastEngineAB "hi" = { status := .failed, message := "A failed" }
      ∧ (applyInputGuardrailsRun failFastEngineAB "hi").invoked = ["A"]
      ∧ (applyInputGuardrails collectAllEngineAB "hi").status = .failed
      ∧ (applyInputGuardrailsRun collectAllEngineAB "hi").invoked = ["A", "B"]
      ∧ (applyInputGuardrails collectAllEngineAB "hi").message = "A: A failed; B: B ok" := by
  have hff := (enginePipeline_failfast_vs_collect failFastEngineAB "hi" rfl).1
    [] guardrailA [guardrailB] { status := .failed, message := "A failed" }
    rfl rfl (by intro p hp; simp at hp) rfl (fun s => rfl) rfl
  have hca := (enginePipeline_failfast_vs_collect collectAllEngineAB "hi" rfl).2
    (fun g => g.name == "A") (fun g => if g.name == "A" then "A failed" else "B ok")
    rfl (by
      intro g hg hge s
      fin_cases hg
      · exact ⟨{ status := .failed, message := "A failed" }, rfl, by decide, by decide⟩
      · exact ⟨{ status := .passed, message := "B ok" }, rfl, by decide, by decide⟩)
  refine ⟨hff.1, by rw [hff.2]; rfl, by rw [hca.1]; rfl, by rw [hca.2.1]; rfl, ?_⟩
  rw [hca.2.2]
  rfl

/-- In fail-fast mode, once the loop reaches an active guardrail whose check
raises `exc` (after a prefix of active guardrails that all succeed), it
returns a `Failed` result whose message carries the exception text, and
invokes nothing beyond that guardrail. -/
theorem inputLoop_failfast_exception (pre : List InputGuardrail) (g : InputGuardrail)
    (post : List InputGuardrail) (exc : PyExc)
    (hpre : ∀ p ∈ pre, p.enabled = true →
      ∀ s, ∃ rp, p.validate s = .ok rp ∧ rp.isFailure = false)
    (hg : g.enabled = true) (hexc : ∀ s, g.validate s = .error exc) :
    ∀ c md m h, (inputPipelineLoop true (pre ++ g :: post) c md m h).result =
        { status := .failed, message := "Error in input guardrail " ++ g.name ++ ": " ++ exc.str }
      ∧ (inputPipelineLoop true (pre ++ g :: post) c md m h).invoked =
        activeInputNames pre ++ [g.name] := by
  induction pre with
  | nil =>
      intro c md m h
      simp [inputPipelineLoop, hg, hexc c, activeInputNames]
  | cons p pre ih =>
      intro c md m h
      have ih2 := ih (fun q hq hqe s => hpre q (List.mem_cons_of_mem p hq) hqe s)
      cases hpe : p.enabled with
      | false =>
          have hout := ih2 c md m h
          simp only [List.cons_append, inputPipelineLoop, hpe, Bool.false_eq_true, if_false,
            List.append_eq]
          refine ⟨hout.1, ?_⟩
          rw [hout.2]
          simp [activeInputNames, hpe]
      | true =>
          obtain ⟨rp, hval, hfail⟩ := hpre p (List.mem_cons_self p pre) hpe c
          have hout := ih2 (nextText rp c) (nextMetadata rp md)
            (m ++ [p.name ++ ": " ++ rp.message]) h
          simp only [List.cons_append, inputPipelineLoop, hpe, if_true, hval, hfail,
            Bool.false_eq_true, if_false, List.append_eq]
          refine ⟨hout.1, ?_⟩
          rw [hout.2]
          simp [activeInputNames, hpe]

/-- In collect-all mode the loop invokes exactly the active guardrails, no
matter how each of them behaves. -/
theorem inputLoop_collect_invoked (gs : List InputGuardrail) :
    ∀ c md m h, (inputPipelineLoop false gs c md m h).invoked = activeInputNames gs := by
  induction gs with
  | nil => intro c md m h; simp [inputPipelineLoop, activeInputNames]
  | cons g gs ih =>
      intro c md m h
      cases hge : g.enabled with
      | false =>
          simp only [inputPipelineLoop, hge, Bool.false_eq_true, if_false]
          rw [ih c md m h]
          simp [activeInputNames, hge]
      | true =>
          cases hval : g.validate c with
          | ok r =>
              cases hrf : r.isFailure with
              | true =>
                  simp only [inputPipelineLoop, hge, if_true, hval, hrf,
                    Bool.false_eq_true, if_false]
                  rw [ih c md (m ++ [g.name ++ ": " ++ r.message]) true]
                  simp [activeInputNames, hge]
              | false =>
                  simp only [inputPipelineLoop, hge, if_true, hval, hrf,
                    Bool.false_eq_true, if_false]
                  rw [ih (nextText r c) (nextMetadata r md)
                    (m ++ [g.name ++ ": " ++ r.message]) h]
                  simp [activeInputNames, hge]
          | error exc =>
              simp only [inputPipelineLoop, hge, if_true, hval,
                Bool.false_eq_true, if_false]
              rw [ih c md (m ++ ["Error in input guardrail " ++ g.name ++ ": " ++ exc.str])
                true]
              simp [activeInputNames, hge]

/-- In collect-all mode the final message list extends the accumulator. -/
theorem inputLoop_collect_msgs_extend (gs : List InputGuardrail) :
    ∀ c md m h, ∃ tl, (inputPipelineLoop false gs c md m h).msgs = m ++ tl := by
  induction gs with
  | nil => intro c md m h; exact ⟨[], by simp [inputPipelineLoop]⟩
  | cons g gs ih =>
      intro c md m h
      cases hge : g.enabled with
      | false =>
          simp only [inputPipelineLoop, hge, Bool.false_eq_true, if_false]
          exact ih c md m h
      | true =>
          cases hval : g.validate c with
          | ok r =>
              cases hrf : r.isFailure with
              | true =>
                  simp only [inputPipelineLoop, hge, if_true, hval, hrf,
                    Bool.false_eq_true, if_false]
                  obtain ⟨tl, htl⟩ := ih c md (m ++ [g.name ++ ": " ++ r.message]) true
                  exact ⟨[g.name ++ ": " ++ r.message] ++ tl, by rw [htl]; simp⟩
              | false =>
                  simp only [inputPipelineLoop, hge, if_true, hval, hrf,
                    Bool.false_eq_true, if_false]
                  obtain ⟨tl, htl⟩ := ih (nextText r c) (nextMetadata r md)
                    (m ++ [g.name ++ ": " ++ r.message]) h
                  exact ⟨[g.name ++ ": " ++ r.message] ++ tl, by rw [htl]; simp⟩
          | error exc =>
              simp only [inputPipelineLoop, hge, if_true, hval,
                Bool.false_eq_true, if_false]
              obtain ⟨tl, htl⟩ := ih c md
                (m ++ ["Error in input guardrail " ++ g.name ++ ": " ++ exc.str]) true
              exact ⟨["Error in input guardrail " ++ g.name ++ ": " ++ exc.str] ++ tl,
                by rw [htl]; simp⟩

/-- In collect-all mode, once `has_failures` is set the final status is
`Failed`, whatever the remaining guardrails do. -/
theorem inputLoop_failed_monotone (gs : List InputGuardrail) :
    ∀ c md m, (inputPipelineLoop false gs c md m true).result.status = .failed := by
  induction gs with
  | nil => intro c md m; simp [inputPipelineLoop]
  | cons g gs ih =>
      intro c md m
      cases hge : g.enabled with
      | false =>
          simp only [inputPipelineLoop, hge, Bool.false_eq_true, if_false]
          exact ih c md m
      | true =>
          cases hval : g.validate c with
          | ok r =>
              cases hrf : r.isFailure with
              | true =>
                  simp only [inputPipelineLoop, hge, if_true, hval, hrf,
                    Bool.false_eq_true, if_false]
                  exact ih c md (m ++ [g.name ++ ": " ++ r.message])
              | false =>
                  simp only [inputPipelineLoop, hge, if_true, hval, hrf,
                    Bool.false_eq_true, if_false]
                  exact ih (nextText r c) (nextMetadata r md)
                    (m ++ [g.name ++ ": " ++ r.message])
          | error exc =>
              simp only [inputPipelineLoop, hge, if_true, hval,
                Bool.false_eq_true, if_false]
              exact ih c md (m ++ ["Error in input guardrail " ++ g.name ++ ": " ++ exc.str])

/-- In collect-all mode, when the loop reaches an active guardrail whose check
raises `exc` (after a prefix of active guardrails that all succeed), the final
status is `Failed`, the error message carrying the exception text is among the
collected messages, and every active guardrail — before and after the raising
one — is invoked. -/
theorem inputLoop_collect_exception (pre : List InputGuardrail) (g : InputGuardrail)
    (post : List InputGuardrail) (exc : PyExc)
    (hpre : ∀ p ∈ pre, p.enabled = true →
      ∀ s, ∃ rp, p.validate s = .ok rp ∧ rp.isFailure = false)
    (hg : g.enabled = true) (hexc : ∀ s, g.validate s = .error exc) :
    ∀ c md m h,
      (inputPipelineLoop false (pre ++ g :: post) c md m h).result.status = .failed
      ∧ ("Error in input guardrail " ++ g.name ++ ": " ++ exc.str)
          ∈ (inputPipelineLoop false (pre ++ g :: post) c md m h).msgs
      ∧ (inputPipelineLoop false (pre ++ g :: post) c md m h).invoked =
          activeInputNames pre ++ g.name :: activeInputNames post := by
  induction pre with
  | nil =>
      intro c md m h
      simp only [List.nil_append, inputPipelineLoop, hg, if_true, hexc c,
        Bool.false_eq_true, if_false]
      refine ⟨inputLoop_failed_monotone post c md _, ?_, ?_⟩
      · obtain ⟨tl, htl⟩ := inputLoop_collect_msgs_extend post c md
          (m ++ ["Error in input guardrail " ++ g.name ++ ": " ++ exc.str]) true
        rw [htl]
        simp
      · rw [inputLoop_collect_invoked post c md
          (m ++ ["Error in input guardrail " ++ g.name ++ ": " ++ exc.str]) true]
        simp [activeInputNames]
  | cons p pre ih =>
      intro c md m h
      have ih2 := ih (fun q hq hqe s => hpre q (List.mem_cons_of_mem p hq) hqe s)
      cases hpe : p.enabled with
      | false =>
          have hout := ih2 c md m h
          simp only [List.cons_append, inputPipelineLoop, hpe, Bool.false_eq_true, if_false,
            List.append_eq]
          refine ⟨hout.1, hout.2.1, ?_⟩
          rw [hout.2.2]
          simp [activeInputNames, hpe]
      | true =>
          obtain ⟨rp, hval, hfail⟩ := hpre p (List.mem_cons_self p pre) hpe c
          have hout := ih2 (nextText rp c) (nextMetadata rp md)
            (m ++ [p.name ++ ": " ++ rp.message]) h
          simp only [List.cons_append, inputPipelineLoop, hpe, if_true, hval, hfail,
            Bool.false_eq_true, if_false, List.append_eq]
          refine ⟨hout.1, hout.2.1, ?_⟩
          rw [hout.2.2]
          simp [activeInputNames, hpe]

/-- In fail-fast mode, once the loop reaches an active guardrail whose check
raises `exc` (after a prefix of active guardrails that all succeed), it
returns a `Failed` result whose message carries the exception text, and
invokes nothing beyond that guardrail. -/
theorem outputLoop_failfast_exception (it : String) (pre : List OutputGuardrail) (g : OutputGuardrail)
    (post : List OutputGuardrail) (exc : PyExc)
    (hpre : ∀ p ∈ pre, p.enabled = true →
      ∀ s, ∃ rp, p.filter s it = .ok rp ∧ rp.isFailure = false)
    (hg : g.enabled = true) (hexc : ∀ s, g.filter s it = .error exc) :
    ∀ c md m h, (outputPipelineLoop true it (pre ++ g :: post) c md m h).result =
        { status := .failed, message := "Error in output guardrail " ++ g.name ++ ": " ++ exc.str }
      ∧ (outputPipelineLoop true it (pre ++ g :: post) c md m h).invoked =
        activeOutputNames pre ++ [g.name] := by
  induction pre with
  | nil =>
      intro c md m h
      simp [outputPipelineLoop, hg, hexc c, activeOutputNames]
  | cons p pre ih =>
      intro c md m h
      have ih2 := ih (fun q hq hqe s => hpre q (List.mem_cons_of_mem p hq) hqe s)
      cases hpe : p.enabled with
      | false =>
          have hout := ih2 c md m h
          simp only [List.cons_append, outputPipelineLoop, hpe, Bool.false_eq_true, if_false,
            List.append_eq]
          refine ⟨hout.1, ?_⟩
          rw [hout.2]
          simp [activeOutputNames, hpe]
      | true =>
          obtain ⟨rp, hval, hfail⟩ := hpre p (List.mem_cons_self p pre) hpe c
          have hout := ih2 (nextText rp c) (nextMetadata rp md)
            (m ++ [p.name ++ ": " ++ rp.message]) h
          simp only [List.cons_append, outputPipelineLoop, hpe, if_true, hval, hfail,
            Bool.false_eq_true, if_false, List.append_eq]
          refine ⟨hout.1, ?_⟩
          rw [hout.2]
          simp [activeOutputNames, hpe]

/-- In collect-all mode the loop invokes exactly the active guardrails, no
matter how each of them behaves. -/
theorem outputLoop_collect_invoked (it : String) (gs : List OutputGuardrail) :
    ∀ c md m h, (outputPipelineLoop false it gs c md m h).invoked = activeOutputNames gs := by
  induction gs with
  | nil => intro c md m h; simp [outputPipelineLoop, activeOutputNames]
  | cons g gs ih =>
      intro c md m h
      cases hge : g.enabled with
      | false =>
          simp only [outputPipelineLoop, hge, Bool.false_eq_true, if_false]
          rw [ih c md m h]
          simp [activeOutputNames, hge]
      | true =>
          cases hval : g.filter c it with
          | ok r =>
              cases hrf : r.isFailure with
              | true =>
                  simp only [outputPipelineLoop, hge, if_true, hval, hrf,
                    Bool.false_eq_true, if_false]
                  rw [ih c md (m ++ [g.name ++ ": " ++ r.message]) true]
                  simp [activeOutputNames, hge]
              | false =>
                  simp only [outputPipelineLoop, hge, if_true, hval, hrf,
                    Bool.false_eq_true, if_false]
                  rw [ih (nextText r c) (nextMetadata r md)
                    (m ++ [g.name ++ ": " ++ r.message]) h]
                  simp [activeOutputNames, hge]
          | error exc =>
              simp only [outputPipelineLoop, hge, if_true, hval,
                Bool.false_eq_true, if_false]
              rw [ih c md (m ++ ["Error in output guardrail " ++ g.name ++ ": " ++ exc.str])
                true]
              simp [activeOutputNames, hge]

/-- In collect-all mode the final message list extends the accumulator. -/
theorem outputLoop_collect_msgs_extend (it : String) (gs : List OutputGuardrail) :
    ∀ c md m h, ∃ tl, (outputPipelineLoop false it gs c md m h).msgs = m ++ tl := by
  induction gs with
  | nil => intro c md m h; exact ⟨[], by simp [outputPipelineLoop]⟩
  | cons g gs ih =>
      intro c md m h
      cases hge : g.enabled with
      | false =>
          simp only [outputPipelineLoop, hge, Bool.false_eq_true, if_false]
          exact ih c md m h
      | true =>
          cases hval : g.filter c it with
          | ok r =>
              cases hrf : r.isFailure with
              | true =>
                  simp only [outputPipelineLoop, hge, if_true, hval, hrf,
                    Bool.false_eq_true, if_false]
                  obtain ⟨tl, htl⟩ := ih c md (m ++ [g.name ++ ": " ++ r.message]) true
                  exact ⟨[g.name ++ ": " ++ r.message] ++ tl, by rw [htl]; simp⟩
              | false =>
                  simp only [outputPipelineLoop, hge, if_true, hval, hrf,
                    Bool.false_eq_true, if_false]
                  obtain ⟨tl, htl⟩ := ih (nextText r c) (nextMetadata r md)
                    (m ++ [g.name ++ ": " ++ r.message]) h
                  exact ⟨[g.name ++ ": " ++ r.message] ++ tl, by rw [htl]; simp⟩
          | error exc =>
              simp only [outputPipelineLoop, hge, if_true, hval,
                Bool.false_eq_true, if_false]
              obtain ⟨tl, htl⟩ := ih c md
                (m ++ ["Error in output guardrail " ++ g.name ++ ": " ++ exc.str]) true
              exact ⟨["Error in output guardrail " ++ g.name ++ ": " ++ exc.str] ++ tl,
                by rw [htl]; simp⟩

/-- In collect-all mode, once `has_failures` is set the final status is
`Failed`, whatever the remaining guardrails do. -/
theorem outputLoop_failed_monotone (it : String) (gs : List OutputGuardrail) :
    ∀ c md m, (outputPipelineLoop false it gs c md m true).result.status = .failed := by
  induction gs with
  | nil => intro c md m; simp [outputPipelineLoop]
  | cons g gs ih =>
      intro c md m
      cases hge : g.enabled with
      | false =>
          simp only [outputPipelineLoop, hge, Bool.false_eq_true, if_false]
          exact ih c md m
      | true =>
          cases hval : g.filter c it with
          | ok r =>
              cases hrf : r.isFailure with
              | true =>
                  simp only [outputPipelineLoop, hge, if_true, hval, hrf,
                    Bool.false_eq_true, if_false]
                  exact ih c md (m ++ [g.name ++ ": " ++ r.message])
              | false =>
                  simp only [outputPipelineLoop, hge, if_true, hval, hrf,
                    Bool.false_eq_true, if_false]
                  exact ih (nextText r c) (nextMetadata r md)
                    (m ++ [g.name ++ ": " ++ r.message])
          | error exc =>
              simp only [outputPipelineLoop, hge, if_true, hval,
                Bool.false_eq_true, if_false]
              exact ih c md (m ++ ["Error in output guardrail " ++ g.name ++ ": " ++ exc.str])

/-- In collect-all mode, when the loop reaches an active guardrail whose check
raises `exc` (after a prefix of active guardrails that all succeed), the final
status is `Failed`, the error message carrying the exception text is among the
collected messages, and every active guardrail — before and after the raising
one — is invoked. -/
theorem outputLoop_collect_exception (it : String) (pre : List OutputGuardrail) (g : OutputGuardrail)
    (post : List OutputGuardrail) (exc : PyExc)
    (hpre : ∀ p ∈ pre, p.enabled = true →
      ∀ s, ∃ rp, p.filter s it = .ok rp ∧ rp.isFailure = false)
    (hg : g.enabled = true) (hexc : ∀ s, g.filter s it = .error exc) :
    ∀ c md m h,
      (outputPipelineLoop false it (pre ++ g :: post) c md m h).result.status = .failed
      ∧ ("Error in output guardrail " ++ g.name ++ ": " ++ exc.str)
          ∈ (outputPipelineLoop false it (pre ++ g :: post) c md m h).msgs
      ∧ (outputPipelineLoop false it (pre ++ g :: post) c md m h).invoked =
          activeOutputNames pre ++ g.name :: activeOutputNames post := by
  induction pre with
  | nil =>
      intro c md m h
      simp only [List.nil_append, outputPipelineLoop, hg, if_true, hexc c,
        Bool.false_eq_true, if_false]
      refine ⟨outputLoop_failed_monotone it post c md _, ?_, ?_⟩
      · obtain ⟨tl, htl⟩ := outputLoop_collect_msgs_extend it post c md
          (m ++ ["Error in output guardrail " ++ g.name ++ ": " ++ exc.str]) true
        rw [htl]
        simp
      · rw [outputLoop_collect_invoked it post c md
          (m ++ ["Error in output guardrail " ++ g.name ++ ": " ++ exc.str]) true]
        simp [activeOutputNames]
  | cons p pre ih =>
      intro c md m h
      have ih2 := ih (fun q hq hqe s => hpre q (List.mem_cons_of_mem p hq) hqe s)
      cases hpe : p.enabled with
      | false =>
          have hout := ih2 c md m h
          simp only [List.cons_append, outputPipelineLoop, hpe, Bool.false_eq_true, if_false,
            List.append_eq]
          refine ⟨hout.1, hout.2.1, ?_⟩
          rw [hout.2.2]
          simp [activeOutputNames, hpe]
      | true =>
          obtain ⟨rp, hval, hfail⟩ := hpre p (List.mem_cons_self p pre) hpe c
          have hout := ih2 (nextText rp c) (nextMetadata rp md)
            (m ++ [p.name ++ ": " ++ rp.message]) h
          simp only [List.cons_append, outputPipelineLoop, hpe, if_true, hval, hfail,
            Bool.false_eq_true, if_false, List.append_eq]
          refine ⟨hout.1, hout.2.1, ?_⟩
          rw [hout.2.2]
          simp [activeOutputNames, hpe]

/-- C8 — an exception raised inside a guardrail's check never escapes the
pipelines (both `applyInputGuardrails` and `applyOutputGuardrails` are total
functions into `GuardrailResult`): the engine converts it into a `Failed`
result whose message carries the exception text, subject to the same
fail-fast/continue branching as any other failure — in fail-fast mode the
pipeline returns that `Failed` result at once and invokes nothing further; in
collect-all mode the error message is collected, the remaining active
guardrails are still invoked, and the overall status is `Failed`. -/
theorem engineGuardrailException (e : GuardrailsEngine) (he : e.enabled = true) :
    (∀ (t : String) pre g post exc,
      e.inputGuardrails = pre ++ g :: post →
      (∀ p ∈ pre, p.enabled = true →
        ∀ s, ∃ rp, p.validate s = .ok rp ∧ rp.isFailure = false) →
      g.enabled = true →
      (∀ s, g.validate s = .error exc) →
      (e.failFast = true →
        applyInputGuardrails e t =
          { status := .failed,
            message := "Error in input guardrail " ++ g.name ++ ": " ++ exc.str }
        ∧ (applyInputGuardrailsRun e t).invoked = activeInputNames pre ++ [g.name]) ∧
      (e.failFast = false →
        (applyInputGuardrails e t).status = .failed
        ∧ ("Error in input guardrail " ++ g.name ++ ": " ++ exc.str)
            ∈ (applyInputGuardrailsRun e t).msgs
        ∧ (applyInputGuardrailsRun e t).invoked =
            activeInputNames pre ++ g.name :: activeInputNames post)) ∧
    (∀ (ot it : String) pre g post exc,
      e.outputGuardrails = pre ++ g :: post →
      (∀ p ∈ pre, p.enabled = true →
        ∀ s, ∃ rp, p.filter s it = .ok rp ∧ rp.isFailure = false) →
      g.enabled = true →
      (∀ s, g.filter s it = .error exc) →
      (e.failFast = true →
        applyOutputGuardrails e ot it =
          { status := .failed,
            message := "Error in output guardrail " ++ g.name ++ ": " ++ exc.str }
        ∧ (applyOutputGuardrailsRun e ot it).invoked = activeOutputNames pre ++ [g.name]) ∧
      (e.failFast = false →
        (applyOutputGuardrails e ot it).status = .failed
        ∧ ("Error in output guardrail " ++ g.name ++ ": " ++ exc.str)
            ∈ (applyOutputGuardrailsRun e ot it).msgs
        ∧ (applyOutputGuardrailsRun e ot it).invoked =
            activeOutputNames pre ++ g.name :: activeOutputNames post)) := by
  constructor
  · intro t pre g post exc hdec hpre hg hexc
    have hrun : applyInputGuardrailsRun e t =
        inputPipelineLoop e.failFast e.inputGuardrails t [] [] false := by
      rw [applyInputGuardrailsRun, if_pos he]
    constructor
    · intro hff
      have h := inputLoop_failfast_exception pre g post exc hpre hg hexc t [] [] false
      rw [← hdec] at h
      rw [applyInputGuardrails, hrun, hff]
      exact h
    · intro hff
      have h := inputLoop_collect_exception pre g post exc hpre hg hexc t [] [] false
      rw [← hdec] at h
      rw [applyInputGuardrails, hrun, hff]
      exact h
  · intro ot it pre g post exc hdec hpre hg hexc
    have hrun : applyOutputGuardrailsRun e ot it =
        outputPipelineLoop e.failFast it e.outputGuardrails ot [] [] false := by
      rw [applyOutputGuardrailsRun, if_pos he]
    constructor
    · intro hff
      have h := outputLoop_failfast_exception it pre g post exc hpre hg hexc ot [] [] false
      rw [← hdec] at h
      rw [applyOutputGuardrails, hrun, hff]
      exact h
    · intro hff
      have h := outputLoop_collect_exception it pre g post exc hpre hg hexc ot [] [] false
      rw [← hdec] at h
      rw [applyOutputGuardrails, hrun, hff]
      exact h

/-- An input guardrail whose check always raises `ZeroDivisionError`. -/
def throwingInputGuardrail : InputGuardrail :=
  { name := "thrower", enabled := true,
    validate := fun _ => .error (.other "ZeroDivisionError" "division by zero") }

/-- An output guardrail whose check always raises `ZeroDivisionError`. -/
def throwingOutputGuardrail : OutputGuardrail :=
  { name := "othrower", enabled := true,
    filter := fun _ _ => .error (.other "ZeroDivisionError" "division by zero") }

/-- A fail-fast engine whose single input guardrail throws. -/
def throwFailFastEngine : GuardrailsEngine :=
  { inputGuardrails := [throwingInputGuardrail],
    outputGuardrails := [throwingOutputGuardrail] }

/-- A collect-all engine whose first input guardrail throws and whose second
passes. -/
def throwCollectEngine : GuardrailsEngine :=
  { failFast := false, inputGuardrails := [throwingInputGuardrail, guardrailB] }

/-- Witness for C8: the throwing guardrail is converted into a `Failed` result
carrying the exception text; in fail-fast mode nothing later runs, in
collect-all mode the later guardrail `B` is still invoked, and the output
pipeline behaves the same way. -/
theorem engineGuardrailException_witness :
    applyInputGuardrails throwFailFastEngine "x" =
        { status := .failed, message := "Error in input guardrail thrower: division by zero" }
      ∧ (applyInputGuardrailsRun throwFailFastEngine "x").invoked = ["thrower"]
      ∧ (applyInputGuardrails throwCollectEngine "x").status = .failed
      ∧ "Error in input guardrail thrower: division by zero"
          ∈ (applyInputGuardrailsRun throwCollectEngine "x").msgs
      ∧ (applyInputGuardrailsRun throwCollectEngine "x").invoked = ["thrower", "B"]
      ∧ applyOutputGuardrails throwFailFastEngine "resp" "x" =
          { status := .failed, message := "Error in output guardrail othrower: division by zero" } := by
  have hff := ((engineGuardrailException throwFailFastEngine rfl).1 "x"
    [] throwingInputGuardrail [] (.other "ZeroDivisionError" "division by zero")
    rfl (by intro p hp; simp at hp) rfl (fun s => rfl)).1 rfl
  have hca := ((engineGuardrailException throwCollectEngine rfl).1 "x"
    [] throwingInputGuardrail [guardrailB] (.other "ZeroDivisionError" "division by zero")
    rfl (by intro p hp; simp at hp) rfl (fun s => rfl)).2 rfl
  have hout := ((engineGuardrailException throwFailFastEngine rfl).2 "resp" "x"
    [] throwingOutputGuardrail [] (.other "ZeroDivisionError" "division by zero")
    rfl (by intro p hp; simp at hp) rfl (fun s => rfl)).1 rfl
  exact ⟨hff.1, by rw [hff.2]; rfl, hca.1, hca.2.1, by rw [hca.2.2]; rfl, hout.1⟩

/-- Inserting into the descending sort produces a permutation of the cons. -/
theorem insertByStartDesc_perm (d : PIIDetection) (l : List PIIDetection) :
    List.Perm (insertByStartDesc d l) (d :: l) := by
  induction l with
  | nil => simp [insertByStartDesc]
  | cons x xs ih =>
      by_cases hx : x.start ≥ d.start
      · simp only [insertByStartDesc, if_pos hx]
        exact (ih.cons x).trans (List.Perm.swap d x xs)
      · simp [insertByStartDesc, if_neg hx]

/-- The descending sort is a permutation of its input. -/
theorem sortByStartDesc_perm (ds : List PIIDetection) :
    List.Perm (sortByStartDesc ds) ds := by
  suffices h : ∀ acc : List PIIDetection,
      List.Perm (ds.foldl (fun acc d => insertByStartDesc d acc) acc) (acc ++ ds) by
    simpa using h []
  induction ds with
  | nil => intro acc; simp
  | cons d rest ih =>
      intro acc
      have h1 : List.Perm (rest.foldl (fun acc d => insertByStartDesc d acc)
          (insertByStartDesc d acc)) (insertByStartDesc d acc ++ rest) :=
        ih (insertByStartDesc d acc)
      have h2 : List.Perm (insertByStartDesc d acc ++ rest) ((d :: acc) ++ rest) :=
        (insertByStartDesc_perm d acc).append_right rest
      have h3 : List.Perm ((d :: acc) ++ rest) (acc ++ d :: rest) := by
        simpa using (@List.perm_middle _ d acc rest).symm
      exact (h1.trans h2).trans h3

/-- Inserting preserves sortedness by start offset, descending. -/
theorem insertByStartDesc_sorted (d : PIIDetection) (l : List PIIDetection)
    (hl : l.Pairwise (fun a b => b.start ≤ a.start)) :
    (insertByStartDesc d l).Pairwise (fun a b => b.start ≤ a.start) := by
  induction l with
  | nil => simp [insertByStartDesc]
  | cons x xs ih =>
      rcases List.pairwise_cons.mp hl with ⟨hx, hxs⟩
      by_cases hcmp : x.start ≥ d.start
      · simp only [insertByStartDesc, if_pos hcmp]
        refine List.pairwise_cons.mpr ⟨?_, ih hxs⟩
        intro y hy
        have hy2 := (insertByStartDesc_perm d xs).mem_iff.mp hy
        rcases List.mem_cons.mp hy2 with rfl | hy3
        · exact hcmp
        · exact hx y hy3
      · simp only [insertByStartDesc, if_neg hcmp]
        refine List.pairwise_cons.mpr ⟨?_, hl⟩
        intro y hy
        rcases List.mem_cons.mp hy with rfl | hy3
        · omega
        · exact le_trans (hx y hy3) (by omega)

/-- The descending sort is sorted by start offset, descending. -/
theorem sortByStartDesc_sorted (ds : List PIIDetection) :
    (sortByStartDesc ds).Pairwise (fun a b => b.start ≤ a.start) := by
  suffices h : ∀ acc : List PIIDetection, acc.Pairwise (fun a b => b.start ≤ a.start) →
      (ds.foldl (fun acc d => insertByStartDesc d acc) acc).Pairwise
        (fun a b => b.start ≤ a.start) by
    exact h [] (by simp)
  induction ds with
  | nil => intro acc hacc; simpa using hacc
  | cons d rest ih =>
      intro acc hacc
      exact ih (insertByStartDesc d acc) (insertByStartDesc_sorted d acc hacc)

/-- An ascending chain of spans between `lo` and `b`: consecutive spans do not
overlap, the first starts at or after `lo` and the last ends at or before
`b`. -/
def chainTo (lo b : Nat) : List PIIDetection → Prop
  | [] => lo ≤ b
  | x :: xs => lo ≤ x.start ∧ x.start ≤ x.stop ∧ chainTo x.stop b xs

/-- Characterisation of a chain with its last element split off. -/
theorem chainTo_snoc (x : PIIDetection) (u : List PIIDetection) :
    ∀ lo b, chainTo lo b (u ++ [x]) ↔
      (chainTo lo x.start u ∧ x.start ≤ x.stop ∧ x.stop ≤ b) := by
  induction u with
  | nil =>
      intro lo b
      simp [chainTo, and_assoc]
  | cons y ys ih =>
      intro lo b
      simp only [List.cons_append, List.append_eq, chainTo, ih, and_assoc]

/-- The reverse of a descending, pairwise non-overlapping, in-bounds span list
is an ascending chain. -/
theorem chainTo_of_desc (l : List PIIDetection) :
    ∀ b, l.Pairwise (fun a b => b.stop ≤ a.start) →
      (∀ x ∈ l, x.start ≤ x.stop) →
      (∀ x ∈ l, x.stop ≤ b) →
      chainTo 0 b l.reverse := by
  induction l with
  | nil => intro b _ _ _; simp [chainTo]
  | cons x xs ih =>
      intro b hch hwf hb
      rcases List.pairwise_cons.mp hch with ⟨hx, hxs⟩
      have hrec : chainTo 0 x.start xs.reverse :=
        ih x.start hxs (fun y hy => hwf y (List.mem_cons_of_mem x hy)) (fun y hy => hx y hy)
      rw [List.reverse_cons, chainTo_snoc]
      exact ⟨hrec, hwf x (List.mem_cons_self x xs), hb x (List.mem_cons_self x xs)⟩

/-- The segment list always has one more entry than the span list. -/
theorem maskSegments_length (t : List Char) :
    ∀ (l : List PIIDetection) (lo : Nat), (maskSegments t lo l).length = l.length + 1 := by
  intro l
  induction l with
  | nil => intro lo; simp [maskSegments]
  | cons d rest ih => intro lo; simp [maskSegments, ih d.stop]

/-- The segment list is never empty. -/
theorem maskSegments_ne_nil (t : List Char) (l : List PIIDetection) (lo : Nat) :
    maskSegments t lo l ≠ [] := by
  cases l <;> simp [maskSegments]

/-- Joining the segments without the separator yields exactly the non-matched
characters in order. -/
theorem maskSegments_flatten (t : List Char) :
    ∀ (l : List PIIDetection) (lo : Nat),
      (maskSegments t lo l).flatten = unmatchedChars t lo l := by
  intro l
  induction l with
  | nil => intro lo; simp [maskSegments, unmatchedChars]
  | cons d rest ih => intro lo; simp [maskSegments, unmatchedChars, ih d.stop]

/-- Unfolding `joinWithRep` on a cons with a nonempty tail. -/
theorem joinWithRep_cons (rep s : List Char) (segs : List (List Char)) (h : segs ≠ []) :
    joinWithRep rep (s :: segs) = s ++ rep ++ joinWithRep rep segs := by
  cases segs with
  | nil => exact absurd rfl h
  | cons s2 rest => rfl

/-- A chain from `lo` to `b` forces `lo ≤ b`. -/
theorem chainTo_le (u : List PIIDetection) : ∀ lo b, chainTo lo b u → lo ≤ b := by
  induction u with
  | nil => intro lo b h; exact h
  | cons x xs ih =>
      intro lo b h
      exact le_trans h.1 (le_trans h.2.1 (ih x.stop b h.2.2))

/-- Replacing the span `d` at the end of the text and then cutting the earlier
ascending chain `l` out of the result produces the same joined segments as
cutting `l ++ [d]` out of the original text: the replacement of a span does
not disturb any offset to its left. -/
theorem segments_snoc (t rep : List Char) (d : PIIDetection)
    (hds : d.start ≤ d.stop) (hdl : d.stop ≤ t.length) :
    ∀ (l : List PIIDetection) (lo : Nat), chainTo lo d.start l →
      joinWithRep rep (maskSegments (t.take d.start ++ rep ++ t.drop d.stop) lo l) =
        joinWithRep rep (maskSegments t lo (l ++ [d])) := by
  have hlen : (t.take d.start).length = d.start := by
    rw [List.length_take]; omega
  have hdropEq : ∀ lo : Nat, lo ≤ d.start →
      (t.take d.start ++ rep ++ t.drop d.stop).drop lo =
        (t.drop lo).take (d.start - lo) ++ (rep ++ t.drop d.stop) := by
    intro lo hlo
    rw [List.append_assoc, List.drop_append_eq_append_drop, hlen,
      Nat.sub_eq_zero_of_le hlo, List.drop_zero, List.drop_take]
  intro l
  induction l with
  | nil =>
      intro lo hch
      simp only [maskSegments, List.nil_append]
      show (t.take d.start ++ rep ++ t.drop d.stop).drop lo =
        (t.drop lo).take (d.start - lo) ++ rep ++ t.drop d.stop
      rw [hdropEq lo hch, List.append_assoc]
  | cons x xs ih =>
      intro lo hch
      obtain ⟨hlo, hxx, hrest⟩ := hch
      have hxd : x.stop ≤ d.start := chainTo_le xs x.stop d.start hrest
      have hhead : ((t.take d.start ++ rep ++ t.drop d.stop).drop lo).take (x.start - lo) =
          (t.drop lo).take (x.start - lo) := by
        rw [hdropEq lo (by omega), List.take_append_of_le_length, List.take_take,
          Nat.min_eq_left (by omega)]
        rw [List.length_take, List.length_drop]
        omega
      have htail := ih x.stop hrest
      simp only [List.cons_append, maskSegments]
      rw [joinWithRep_cons _ _ _ (maskSegments_ne_nil _ _ _),
        joinWithRep_cons _ _ _ (maskSegments_ne_nil _ _ _), htail, hhead]
      simp [List.append_eq]

/-- Folding the replacement step over a descending, non-overlapping, in-bounds
span list rewrites the text into the interleaving of its outside-the-spans
segments with the replacement token. -/
theorem foldl_maskReplaceOne_desc (rep : List Char) :
    ∀ (l : List PIIDetection) (t : List Char),
      l.Pairwise (fun a b => b.stop ≤ a.start) →
      (∀ d ∈ l, d.start ≤ d.stop ∧ d.stop ≤ t.length) →
      l.foldl (maskReplaceOne rep) t = joinWithRep rep (maskSegments t 0 l.reverse) := by
  intro l
  induction l with
  | nil =>
      intro t _ _
      simp [maskSegments, joinWithRep]
  | cons d rest ih =>
      intro t hch hwf
      rcases List.pairwise_cons.mp hch with ⟨hd, hrest⟩
      obtain ⟨hds, hdl⟩ := hwf d (List.mem_cons_self d rest)
      have hlen2 : (maskReplaceOne rep t d).length =
          d.start + rep.length + (t.length - d.stop) := by
        simp only [maskReplaceOne, List.length_append, List.length_take, List.length_drop]
        omega
      have hwf2 : ∀ x ∈ rest, x.start ≤ x.stop ∧ x.stop ≤ (maskReplaceOne rep t d).length := by
        intro x hx
        have h1 := (hwf x (List.mem_cons_of_mem d hx)).1
        have h2 := hd x hx
        exact ⟨h1, by omega⟩
      have hfold := ih (maskReplaceOne rep t d) hrest hwf2
      have hchain : chainTo 0 d.start rest.reverse :=
        chainTo_of_desc rest d.start hrest
          (fun y hy => (hwf y (List.mem_cons_of_mem d hy)).1) (fun y hy => hd y hy)
      have hsnoc := segments_snoc t rep d hds hdl rest.reverse 0 hchain
      calc (d :: rest).foldl (maskReplaceOne rep) t
          = rest.foldl (maskReplaceOne rep) (maskReplaceOne rep t d) := rfl
        _ = joinWithRep rep (maskSegments (maskReplaceOne rep t d) 0 rest.reverse) := hfold
        _ = joinWithRep rep (maskSegments t 0 (rest.reverse ++ [d])) := hsnoc
        _ = joinWithRep rep (maskSegments t 0 (d :: rest).reverse) := by
            rw [List.reverse_cons]

/-- C6 — masking a text whose detected spans are pairwise non-overlapping (and
nonempty and in bounds, as every real match of the configured patterns is)
produces exactly the interleaving of the outside-the-spans segments with the
replacement token: the segments are the spans' complement taken in ascending
order, there are `k + 1` of them for `k` spans — so the replacement token is
inserted exactly `k` times — and their concatenation is precisely the
non-matched characters of the text, verbatim and in their original relative
order. -/
theorem maskPII_nonoverlapping (cfg : PIIFilterConfig) (t : List Char)
    (ds : List PIIDetection)
    (hwf : ∀ d ∈ ds, d.start < d.stop ∧ d.stop ≤ t.length)
    (hsep : ds.Pairwise (fun a b => a.stop ≤ b.start ∨ b.stop ≤ a.start)) :
    maskPII cfg t ds =
        joinWithRep cfg.replacement (maskSegments t 0 (sortByStartAsc ds))
      ∧ (maskSegments t 0 (sortByStartAsc ds)).length = ds.length + 1
      ∧ (maskSegments t 0 (sortByStartAsc ds)).flatten =
          unmatchedChars t 0 (sortByStartAsc ds) := by
  have hperm := sortByStartDesc_perm ds
  have hwf2 : ∀ d ∈ sortByStartDesc ds, d.start < d.stop ∧ d.stop ≤ t.length :=
    fun d hd => hwf d (hperm.mem_iff.mp hd)
  have hsorted := sortByStartDesc_sorted ds
  have hsep2 : (sortByStartDesc ds).Pairwise
      (fun a b => a.stop ≤ b.start ∨ b.stop ≤ a.start) := by
    refine (List.Perm.pairwise_iff ?_ hperm).mpr hsep
    intro a b hab
    omega
  have hdesc : (sortByStartDesc ds).Pairwise (fun a b => b.stop ≤ a.start) := by
    have hand := List.Pairwise.and hsorted hsep2
    refine hand.imp_of_mem ?_
    intro a b ha hb hab
    have hwa := hwf2 a ha
    have hwb := hwf2 b hb
    omega
  have hfold := foldl_maskReplaceOne_desc cfg.replacement (sortByStartDesc ds) t hdesc
    (fun d hd => ⟨le_of_lt (hwf2 d hd).1, (hwf2 d hd).2⟩)
  refine ⟨hfold, ?_, maskSegments_flatten t _ 0⟩
  rw [maskSegments_length, sortByStartAsc, List.length_reverse, hperm.length_eq]

/-- The single SSN span of `"call 123-45-6789 now"` (offsets 5 to 16). -/
def ssnSpanExample : PIIDetection :=
  { ty := "ssn", description := "Social Security Number (format 1)",
    text := "123-45-6789".data, start := 5, stop := 16 }

/-- Witness for C6: one span in `"call 123-45-6789 now"` — the masked result
is the segment interleaving, and the hypotheses hold at this input.  The span
really is what `_detect_pii` finds there. -/
theorem maskPII_nonoverlapping_witness :
    detectPII {} "call 123-45-6789 now".data = [ssnSpanExample]
      ∧ (∀ d ∈ [ssnSpanExample], d.start < d.stop ∧ d.stop ≤ "call 123-45-6789 now".data.length)
      ∧ maskPII {} "call 123-45-6789 now".data [ssnSpanExample] =
          joinWithRep (PIIFilterConfig.replacement {})
            (maskSegments "call 123-45-6789 now".data 0 (sortByStartAsc [ssnSpanExample]))
      ∧ maskPII {} "call 123-45-6789 now".data [ssnSpanExample] =
          "call [REDACTED] now".data := by
  have h := maskPII_nonoverlapping {} "call 123-45-6789 now".data [ssnSpanExample]
    (by decide) (by decide)
  exact ⟨by decide, by decide, h.1, by decide⟩

/-- The text on which PII masking fails to be idempotent: the email pattern
matches the whole of `a@1234567890123456.co` while the credit-card pattern
independently matches the 16-digit run inside it, so the two detected spans
overlap. -/
def overlappingSpansText : List Char := "a@1234567890123456.co 99999123-45-6789".data

/-- C7 — PII masking is not idempotent on its own output: on
`overlappingSpansText` the default-configuration filter detects two
overlapping spans (the email at offsets 0-21 and the credit card at offsets
2-18); replacing them from highest start offset to lowest corrupts the
offsets, the masked output is `"[REDACTED]123-45-6789"`, and running detection
on that masked output finds a raw SSN — one detection, not zero.  The sorted
descending replacement keeps offsets valid only for non-overlapping spans;
the spec's idempotence property states the evident intent and the unguarded
overlap handling is the slip. -/
theorem piiMasking_not_idempotent :
    detectPII {} overlappingSpansText =
        [{ ty := "email", description := "Email address",
           text := "a@1234567890123456.co".data, start := 0, stop := 21 },
         { ty := "credit_card", description := "Credit card number",
           text := "1234567890123456".data, start := 2, stop := 18 }]
      ∧ maskPII {} overlappingSpansText (detectPII {} overlappingSpansText) =
          "[REDACTED]123-45-6789".data
      ∧ detectPII {} (maskPII {} overlappingSpansText (detectPII {} overlappingSpansText)) =
          [{ ty := "ssn", description := "Social Security Number (format 1)",
             text := "123-45-6789".data, start := 10, stop := 21 }]
      ∧ detectPII {} (maskPII {} overlappingSpansText (detectPII {} overlappingSpansText))
          ≠ [] := by
  decide
